import Mathlib

/-!
# The state store of tm2/pkg/bft/state (store.go)

A shallow embedding of `store.go`: the key derivation, the validator-set
version store (`saveValidatorsInfo`, `loadValidatorsInfo`, `LoadValidators`,
`lastStoredHeightFor`), the consensus-params version store, the canonical
snapshot (`saveState`, `loadState`, `LoadStateFromDBOrGenesisDoc`), the ABCI
responses of a block and the tx-result index.

Conventions of the embedding.

* `int64` values are integers; where the Go arithmetic can leave the int64
  range the result is reduced with `wrapInt64` (two's complement).  The
  expression `height - height%valSetCheckpointInterval` cannot leave the range
  and is left unreduced.  Go's `%` truncates towards zero: `Int.tmod`.
* `[]byte` values are lists of bytes; keys are the ASCII text that
  `fmt.Appendf` produces, kept as lists of characters.
* A `*types.ValidatorSet` is an `Option`: `none` is the nil pointer.
* The backend `dbm.DB`, the amino codec, the type of validator sets with its
  rotation step and the type of consensus params are not part of `store.go`;
  they are parameters of the development.
* `int` is the 64-bit `int` of the platforms the node runs on, so the conversion
  `int(height - lastStoredHeight)` changes nothing.
* A Go function that can return `(value, error)`, panic, or stop the process
  with `osm.Exit` returns an `Outcome`.
-/

namespace Store

/-! ## Bytes, keys and the backend -/

/-- Byte strings, the Go type `[]byte`. -/
abbrev Bytes := List UInt8

/-- Database keys. Every key of the store is ASCII text built by `fmt.Appendf`. -/
abbrev Key := List Char

/-- One call of `Set` or `SetSync` on the backend, in the order of the calls. -/
structure Write where
  key : Key
  value : Bytes
  sync : Bool
deriving DecidableEq

/-- Modelled from the spec: the key-value backend `dbm.DB`, which is not in
`store.go`. `Get(key)` gives the bytes or nothing, `Set` and `SetSync` replace the
value of one key. The field `writes` records the calls of `Set` and `SetSync`
in order, `sync` telling the two apart. -/
structure DB where
  data : Key → Option Bytes
  writes : List Write

/-- The store in which no key has a value and nothing was written. -/
def DB.empty : DB := ⟨fun _ => none, []⟩

/-- Backend read `db.Get(key)`: `none` is the nil slice of an absent key. -/
def DB.Get (db : DB) (key : Key) : Option Bytes := db.data key

/-- Backend write `db.Set(key, value)`. -/
def DB.Set (db : DB) (key : Key) (value : Bytes) : DB :=
  ⟨fun k => if k = key then some value else db.data k, db.writes ++ [⟨key, value, false⟩]⟩

/-- Backend write `db.SetSync(key, value)`: as `Set`, flushed before it returns. -/
def DB.SetSync (db : DB) (key : Key) (value : Bytes) : DB :=
  ⟨fun k => if k = key then some value else db.data k, db.writes ++ [⟨key, value, true⟩]⟩

/-- Go `len(buf)` of a slice that may be nil. -/
def bufLen : Option Bytes → Nat
  | none => 0
  | some b => b.length

/-- Modelled from the spec: the amino codec, which is not in `store.go`.
`marshal` is `amino.MustMarshal`, `unmarshal` is `amino.Unmarshal` into a fresh
value, with `none` for a decoding error. -/
structure Codec (α : Type) where
  marshal : α → Bytes
  unmarshal : Bytes → Option α

/-- The codec decodes what it encoded. -/
def Codec.RoundTrip {α : Type} (cdc : Codec α) : Prop :=
  ∀ a, cdc.unmarshal (cdc.marshal a) = some a

/-- Only the value `zero` may have the empty encoding. -/
def Codec.EmptyOnlyFor {α : Type} (cdc : Codec α) (zero : α) : Prop :=
  ∀ a, cdc.marshal a = [] → a = zero

/-! ## Integers -/

/-- Two's complement reduction of an integer to the int64 range. -/
def wrapInt64 (x : Int) : Int := (x + 2 ^ 63) % 2 ^ 64 - 2 ^ 63

/-- Go `a + b` on int64. -/
def add64 (a b : Int) : Int := wrapInt64 (a + b)

/-- Go `a - b` on int64. -/
def sub64 (a b : Int) : Int := wrapInt64 (a - b)

/-- The constant `valSetCheckpointInterval`. -/
def valSetCheckpointInterval : Int := 100000

/-! ## Errors and outcomes -/

/-- The typed errors the store returns. -/
inductive StoreError where
  | NoValSetForHeightError (height : Int)
  | NoConsensusParamsForHeightError (height : Int)
  | NoABCIResponsesForHeightError (height : Int)
  | NoTxResultForHashError (txHash : Bytes)
  /-- The package variable `errTxResultIndexCorrupted`. -/
  | errTxResultIndexCorrupted
  /-- The error `amino.Unmarshal` returned. -/
  | unmarshalError
  /-- The error `MakeGenesisState` returned. -/
  | makeGenesisStateError
  /-- `fmt.Errorf("%w, %w", first, second)`: an error wrapping two errors. -/
  | wrapBoth (first second : StoreError)
deriving DecidableEq

/-- Go `errors.Is(e, target)`: `e` is `target` or wraps an error that is. -/
def StoreError.Is : StoreError → StoreError → Bool
  | .wrapBoth first second, target =>
    decide (StoreError.wrapBoth first second = target) || first.Is target || second.Is target
  | e, target => decide (e = target)

/-- The panics of `store.go`, with the values their messages are formatted from. -/
inductive PanicValue where
  /-- "LastHeightChanged cannot be greater than ValidatorsInfo height" -/
  | lastHeightChangedGreater
  /-- "Couldn't find validators at height %d (height %d was originally requested)" -/
  | couldntFindValidators (lastStoredHeight height : Int)
  /-- "Couldn't find consensus params at height %d as last changed from height %d" -/
  | couldntFindConsensusParams (lastHeightChanged height : Int)
  /-- The run-time panic of `make`, "makeslice: len out of range". -/
  | makesliceLenOutOfRange
deriving DecidableEq

/-- How a call ends: it returns a value with a nil error, returns an error,
panics, or stops the process through `osm.Exit`. -/
inductive Outcome (α : Type) where
  | ok (a : α)
  | err (e : StoreError)
  | panic (p : PanicValue)
  | exit
deriving DecidableEq

/-! ## Key derivation -/

/-- The verb `%x` of `fmt` on an int64: a minus sign for a negative value, then
the magnitude in lower-case hexadecimal without leading zeros. -/
def fmtHex (height : Int) : List Char :=
  if height < 0 then '-' :: Nat.toDigits 16 height.natAbs else Nat.toDigits 16 height.toNat

/-- `calcValidatorsKey`. -/
def calcValidatorsKey (height : Int) : Key :=
  "validatorsKey:".toList ++ fmtHex height

/-- `calcConsensusParamsKey`. -/
def calcConsensusParamsKey (height : Int) : Key :=
  "consensusParamsKey:".toList ++ fmtHex height

/-- `CalcABCIResponsesKey`. -/
def CalcABCIResponsesKey (height : Int) : Key :=
  "abciResponsesKey:".toList ++ fmtHex height

/-- The verb `%x` of `fmt` on a byte slice: two lower-case hexadecimal digits
for every byte, nothing in between. -/
def fmtHexBytes : Bytes → List Char
  | [] => []
  | b :: rest =>
    Nat.digitChar (b.toNat / 16) :: Nat.digitChar (b.toNat % 16) :: fmtHexBytes rest

/-- `CalcTxResultKey`. -/
def CalcTxResultKey (hash : Bytes) : Key :=
  "txResultKey:".toList ++ fmtHexBytes hash

/-! ## Records -/

/-- `ValidatorsInfo`: the validator set, when the record embeds one, and the
last height at which the set changed. -/
structure ValidatorsInfo (V : Type) where
  ValidatorSet : Option V
  LastHeightChanged : Int
deriving DecidableEq

/-- `ConsensusParamsInfo`. -/
structure ConsensusParamsInfo (P : Type) where
  ConsensusParams : P
  LastHeightChanged : Int
deriving DecidableEq

/-- Modelled from the spec: the struct `State` is declared outside `store.go`;
these are the fields of the spec's ChainState, the ones `store.go` reads. -/
structure State (V P : Type) where
  LastBlockHeight : Int
  Validators : Option V
  NextValidators : Option V
  LastHeightValidatorsChanged : Int
  ConsensusParams : P
  LastHeightConsensusParamsChanged : Int
deriving DecidableEq

/-- The zero value of `State`, what `loadState` returns for a missing snapshot.
The zero value of the params type is its `default`. -/
def State.zero (V P : Type) [Inhabited P] : State V P :=
  ⟨0, none, none, 0, default, 0⟩

/-- The zero value of `ConsensusParamsInfo`. -/
def ConsensusParamsInfo.zero (P : Type) [Inhabited P] : ConsensusParamsInfo P := ⟨default, 0⟩

/-- The zero value of `ValidatorsInfo`. -/
def ValidatorsInfo.zero (V : Type) : ValidatorsInfo V := ⟨none, 0⟩

/-! ## Validator-set version store -/

/-- Modelled from the spec: `ValidatorSet.IncrementProposerPriority` is not in
`store.go`. The spec describes it as the deterministic proposer-priority rotation
advancing a set by `times` steps; `rot` is one step, and the counted loop runs
`times` times (not at all for `times <= 0`). -/
def IncrementProposerPriority {V : Type} (rot : V → V) (vals : V) (times : Int) : V :=
  rot^[times.toNat] vals

/-- `lastStoredHeightFor`. -/
def lastStoredHeightFor (height lastHeightChanged : Int) : Int :=
  let checkpointHeight := height - height.tmod valSetCheckpointInterval
  max checkpointHeight lastHeightChanged

/-- `loadValidatorsInfo`: `ok none` is the nil result for an absent or empty
value, `exit` the `osm.Exit` on a value that does not decode. -/
def loadValidatorsInfo {V : Type} (cdc : Codec (ValidatorsInfo V)) (db : DB) (height : Int) :
    Outcome (Option (ValidatorsInfo V)) :=
  let buf := db.Get (calcValidatorsKey height)
  if bufLen buf = 0 then .ok none
  else
    match cdc.unmarshal (buf.getD []) with
    | none => .exit
    | some v => .ok (some v)

/-- `LoadValidators`, returning the set together with the argument of the call of
`IncrementProposerPriority` when that call is made (`none` when the record at
`height` embeds its set and nothing is rotated). The returned set is the one
before the rotation. -/
def resolveValidators {V : Type} (cdc : Codec (ValidatorsInfo V)) (db : DB) (height : Int) :
    Outcome (V × Option Int) :=
  match loadValidatorsInfo cdc db height with
  | .exit => .exit
  | .panic p => .panic p
  | .err e => .err e
  | .ok none => .err (.NoValSetForHeightError height)
  | .ok (some valInfo) =>
    match valInfo.ValidatorSet with
    | some vs => .ok (vs, none)
    | none =>
      let lastStoredHeight := lastStoredHeightFor height valInfo.LastHeightChanged
      let found : Outcome (V × Int) :=
        match loadValidatorsInfo cdc db lastStoredHeight with
        | .exit => .exit
        | .panic p => .panic p
        | .err e => .err e
        | .ok (some ⟨some vs2, _⟩) => .ok (vs2, lastStoredHeight)
        | .ok _ =>
          match loadValidatorsInfo cdc db valInfo.LastHeightChanged with
          | .exit => .exit
          | .panic p => .panic p
          | .err e => .err e
          | .ok (some ⟨some vs2, _⟩) => .ok (vs2, valInfo.LastHeightChanged)
          | .ok _ => .panic (.couldntFindValidators valInfo.LastHeightChanged height)
      match found with
      | .exit => .exit
      | .panic p => .panic p
      | .err e => .err e
      | .ok (vs2, lastStoredHeight) => .ok (vs2, some (sub64 height lastStoredHeight))

/-- `LoadValidators`: the set of `resolveValidators`, rotated by the call of
`IncrementProposerPriority` when there is one. -/
def LoadValidators {V : Type} (cdc : Codec (ValidatorsInfo V)) (rot : V → V) (db : DB)
    (height : Int) : Outcome V :=
  match resolveValidators cdc db height with
  | .exit => .exit
  | .panic p => .panic p
  | .err e => .err e
  | .ok (vs, none) => .ok vs
  | .ok (vs, some times) => .ok (IncrementProposerPriority rot vs times)

/-- `saveValidatorsInfo`: the store when the call ends, and how it ends. -/
def saveValidatorsInfo {V : Type} (cdc : Codec (ValidatorsInfo V)) (db : DB)
    (height lastHeightChanged : Int) (valSet : Option V) : DB × Outcome Unit :=
  if lastHeightChanged > height then (db, .panic .lastHeightChangedGreater)
  else
    let valInfo : ValidatorsInfo V :=
      if height = lastHeightChanged ∨ height.tmod valSetCheckpointInterval = 0 then
        ⟨valSet, lastHeightChanged⟩
      else ⟨none, lastHeightChanged⟩
    (db.Set (calcValidatorsKey height) (cdc.marshal valInfo), .ok ())

/-! ## Consensus-params version store -/

/-- `saveConsensusParamsInfo`; it has no failing path. -/
def saveConsensusParamsInfo {P : Type} [Inhabited P] (cdc : Codec (ConsensusParamsInfo P))
    (db : DB) (nextHeight changeHeight : Int) (params : P) : DB :=
  let paramsInfo : ConsensusParamsInfo P :=
    if changeHeight = nextHeight then ⟨params, changeHeight⟩ else ⟨default, changeHeight⟩
  db.Set (calcConsensusParamsKey nextHeight) (cdc.marshal paramsInfo)

/-- `loadConsensusParamsInfo`: `ok none` is the nil result for an absent or
empty value, `exit` the `osm.Exit` on a value that does not decode. -/
def loadConsensusParamsInfo {P : Type} (cdc : Codec (ConsensusParamsInfo P)) (db : DB)
    (height : Int) : Outcome (Option (ConsensusParamsInfo P)) :=
  let buf := db.Get (calcConsensusParamsKey height)
  if bufLen buf = 0 then .ok none
  else
    match cdc.unmarshal (buf.getD []) with
    | none => .exit
    | some paramsInfo => .ok (some paramsInfo)

/-- `LoadConsensusParams`. The value `empty` is the zero value `default` of the
params type, and `amino.DeepEqual`, which is not in `store.go`, is equality of
values. -/
def LoadConsensusParams {P : Type} [Inhabited P] [DecidableEq P]
    (cdc : Codec (ConsensusParamsInfo P)) (db : DB) (height : Int) : Outcome P :=
  match loadConsensusParamsInfo cdc db height with
  | .exit => .exit
  | .panic p => .panic p
  | .err e => .err e
  | .ok none => .err (.NoConsensusParamsForHeightError height)
  | .ok (some paramsInfo) =>
    if (default : P) = paramsInfo.ConsensusParams then
      match loadConsensusParamsInfo cdc db paramsInfo.LastHeightChanged with
      | .exit => .exit
      | .panic p => .panic p
      | .err e => .err e
      | .ok none => .panic (.couldntFindConsensusParams paramsInfo.LastHeightChanged height)
      | .ok (some paramsInfo2) => .ok paramsInfo2.ConsensusParams
    else .ok paramsInfo.ConsensusParams

/-! ## Canonical snapshot -/

/-- `loadState`. -/
def loadState {V P : Type} [Inhabited P] (cdc : Codec (State V P)) (db : DB) (key : Key) :
    Outcome (State V P) :=
  let buf := db.Get key
  if bufLen buf = 0 then .ok (State.zero V P)
  else
    match cdc.unmarshal (buf.getD []) with
    | none => .exit
    | some state => .ok state

/-- `saveState`: the store when the call ends, and how it ends. A panic of one
of the two calls of `saveValidatorsInfo` ends the call with the writes made so
far. `state.Bytes()` is declared with `State`, outside `store.go`; like the
`Bytes` methods of `store.go` it is the amino encoding of the value. -/
def saveState {V P : Type} [Inhabited P] (vc : Codec (ValidatorsInfo V))
    (pc : Codec (ConsensusParamsInfo P)) (sc : Codec (State V P)) (db : DB)
    (state : State V P) (key : Key) : DB × Outcome Unit :=
  let nextHeight := add64 state.LastBlockHeight 1
  let first : DB × Outcome Unit :=
    if nextHeight = 1 then saveValidatorsInfo vc db nextHeight 1 state.Validators
    else (db, .ok ())
  match first with
  | (db1, .ok ()) =>
    match saveValidatorsInfo vc db1 (add64 nextHeight 1) state.LastHeightValidatorsChanged
        state.NextValidators with
    | (db2, .ok ()) =>
      let db3 := saveConsensusParamsInfo pc db2 nextHeight
        state.LastHeightConsensusParamsChanged state.ConsensusParams
      (db3.SetSync key (sc.marshal state), .ok ())
    | failed => failed
  | failed => failed

/-- `LoadState`; the package constant `stateKey` is declared outside `store.go`
and is a parameter. -/
def LoadState {V P : Type} [Inhabited P] (stateKey : Key) (cdc : Codec (State V P)) (db : DB) :
    Outcome (State V P) :=
  loadState cdc db stateKey

/-- `SaveState`; `stateKey` as for `LoadState`. -/
def SaveState {V P : Type} [Inhabited P] (stateKey : Key) (vc : Codec (ValidatorsInfo V))
    (pc : Codec (ConsensusParamsInfo P)) (sc : Codec (State V P)) (db : DB)
    (state : State V P) : DB × Outcome Unit :=
  saveState vc pc sc db state stateKey

/-- `LoadStateFromDBOrGenesisDoc`: the store when the call ends, and how it
ends. The method `State.IsEmpty` and the function `MakeGenesisState` are declared
outside `store.go` and are parameters; `MakeGenesisState` gives `none` when it
returns an error. -/
def LoadStateFromDBOrGenesisDoc {V P G : Type} [Inhabited P] (stateKey : Key)
    (vc : Codec (ValidatorsInfo V)) (pc : Codec (ConsensusParamsInfo P))
    (sc : Codec (State V P)) (IsEmpty : State V P → Bool)
    (MakeGenesisState : G → Option (State V P)) (stateDB : DB) (genesisDoc : G) :
    DB × Outcome (State V P) :=
  match LoadState stateKey sc stateDB with
  | .exit => (stateDB, .exit)
  | .panic p => (stateDB, .panic p)
  | .err e => (stateDB, .err e)
  | .ok state =>
    if IsEmpty state then
      match MakeGenesisState genesisDoc with
      | none => (stateDB, .err .makeGenesisStateError)
      | some genesis =>
        match SaveState stateKey vc pc sc stateDB genesis with
        | (db1, .ok ()) => (db1, .ok genesis)
        | (db1, .err e) => (db1, .err e)
        | (db1, .panic p) => (db1, .panic p)
        | (db1, .exit) => (db1, .exit)
    else (stateDB, .ok state)

/-! ## ABCI responses -/

/-- `ABCIResponses`. The response types of the `abci` package are parameters;
`DeliverTxs` is a slice, `none` being the nil slice and `some []` an allocated
slice of length zero. -/
structure ABCIResponses (T E B : Type) where
  DeliverTxs : Option (List T)
  EndBlock : E
  BeginBlock : B
deriving DecidableEq

/-- `NewABCIResponsesFromNum`. The call `make([]abci.ResponseDeliverTx, numTxs)`
panics with "makeslice: len out of range" when `numTxs` is negative or greater
than the longest slice of that element type the run time allocates. That
length, `maxLen`, is the run time's `maxAlloc` divided by the size of
`abci.ResponseDeliverTx`; neither is in `store.go`, so it is a parameter. Up to
`maxLen` the allocation is taken to succeed. The fields left out of the
composite literal have their zero value, `default`. -/
def NewABCIResponsesFromNum {T E B : Type} [Inhabited T] [Inhabited E] [Inhabited B]
    (maxLen : Nat) (numTxs : Int) : Outcome (ABCIResponses T E B) :=
  if numTxs < 0 ∨ (maxLen : Int) < numTxs then .panic .makesliceLenOutOfRange
  else
    let resDeliverTxs : Option (List T) :=
      if numTxs = 0 then none else some (List.replicate numTxs.toNat default)
    .ok ⟨resDeliverTxs, default, default⟩

/-- `ABCIResponses.ResultsHash`: `types.NewResults` followed by `Hash`, neither
of them in `store.go`; their composition is the parameter `resultsHash`. -/
def ABCIResponses.ResultsHash {T E B : Type} (resultsHash : Option (List T) → Bytes)
    (arz : ABCIResponses T E B) : Bytes :=
  resultsHash arz.DeliverTxs

/-- `LoadABCIResponses`: the test is `buf == nil`, so only an absent key gives the
error. -/
def LoadABCIResponses {T E B : Type} (cdc : Codec (ABCIResponses T E B)) (db : DB)
    (height : Int) : Outcome (ABCIResponses T E B) :=
  match db.Get (CalcABCIResponsesKey height) with
  | none => .err (.NoABCIResponsesForHeightError height)
  | some buf =>
    match cdc.unmarshal buf with
    | none => .exit
    | some abciResponses => .ok abciResponses

/-- `SaveABCIResponses`. -/
def SaveABCIResponses {T E B : Type} (cdc : Codec (ABCIResponses T E B)) (db : DB)
    (height : Int) (abciResponses : ABCIResponses T E B) : DB :=
  db.Set (CalcABCIResponsesKey height) (cdc.marshal abciResponses)

/-! ## Tx-result index -/

/-- `TxResultIndex`; `TxIndex` is a uint32. -/
structure TxResultIndex where
  BlockNum : Int
  TxIndex : Nat
deriving DecidableEq

/-- `LoadTxResultIndex`: the test is `buf == nil`; a value that does not decode
gives an error wrapping `errTxResultIndexCorrupted` and the codec's error. -/
def LoadTxResultIndex (cdc : Codec TxResultIndex) (db : DB) (txHash : Bytes) :
    Outcome TxResultIndex :=
  match db.Get (CalcTxResultKey txHash) with
  | none => .err (.NoTxResultForHashError txHash)
  | some buf =>
    match cdc.unmarshal buf with
    | none => .err (.wrapBoth .errTxResultIndexCorrupted .unmarshalError)
    | some txResultIndex => .ok txResultIndex

/-- `saveTxResultIndex`. -/
def saveTxResultIndex (cdc : Codec TxResultIndex) (db : DB) (txHash : Bytes)
    (resultIndex : TxResultIndex) : DB :=
  db.Set (CalcTxResultKey txHash) (cdc.marshal resultIndex)

/-! ## Auxiliary definitions for the proofs -/

/-- The value of a hexadecimal digit character, the inverse of `Nat.digitChar`
below sixteen. -/
def hexDigitVal (c : Char) : Nat :=
  if c = '0' then 0 else if c = '1' then 1 else if c = '2' then 2 else if c = '3' then 3
  else if c = '4' then 4 else if c = '5' then 5 else if c = '6' then 6 else if c = '7' then 7
  else if c = '8' then 8 else if c = '9' then 9 else if c = 'a' then 10 else if c = 'b' then 11
  else if c = 'c' then 12 else if c = 'd' then 13 else if c = 'e' then 14 else 15

/-- The number a string of hexadecimal digits denotes. -/
def hexVal (l : List Char) : Nat :=
  l.foldl (fun acc c => 16 * acc + hexDigitVal c) 0

/-- A codec for concrete instances: a value is encoded as the unary
numeral of its `Encodable` code, so every value decodes to itself and the value
with code zero has the empty encoding, as the zero value of a struct has under
amino. -/
def unaryCodec (α : Type) [Encodable α] : Codec α :=
  ⟨fun a => List.replicate (Encodable.encode a) 0, fun b => Encodable.decode b.length⟩

instance instEncodableValidatorsInfo (V : Type) [Encodable V] : Encodable (ValidatorsInfo V) :=
  Encodable.ofLeftInjection (fun r => (r.ValidatorSet, r.LastHeightChanged))
    (fun q => some ⟨q.1, q.2⟩) (fun _ => rfl)

instance instEncodableConsensusParamsInfo (P : Type) [Encodable P] :
    Encodable (ConsensusParamsInfo P) :=
  Encodable.ofLeftInjection (fun r => (r.ConsensusParams, r.LastHeightChanged))
    (fun q => some ⟨q.1, q.2⟩) (fun _ => rfl)

instance instEncodableState (V P : Type) [Encodable V] [Encodable P] : Encodable (State V P) :=
  Encodable.ofLeftInjection
    (fun s => (s.LastBlockHeight, s.Validators, s.NextValidators, s.LastHeightValidatorsChanged,
      s.ConsensusParams, s.LastHeightConsensusParamsChanged))
    (fun q => some ⟨q.1, q.2.1, q.2.2.1, q.2.2.2.1, q.2.2.2.2.1, q.2.2.2.2.2⟩) (fun _ => rfl)

/-- The test `valInfo2 == nil || valInfo2.ValidatorSet == nil` of `LoadValidators`
on what `loadValidatorsInfo` returned: the record is absent or carries no set. -/
def lacksSet {V : Type} : Outcome (Option (ValidatorsInfo V)) → Bool
  | .ok none => true
  | .ok (some ⟨none, _⟩) => true
  | _ => false

/-- The scenario of checkpoint reconstruction: `saveValidatorsInfo` called for
the heights `c, c+1, ..., c+n` in order, each with change height `c`, the call
at `c+k` passing `S` advanced by `k` rotation steps. A panic ends the run. -/
def saveValidatorsRange {V : Type} (cdc : Codec (ValidatorsInfo V)) (rot : V → V) (db : DB)
    (c : Int) (S : V) : Nat → DB × Outcome Unit
  | 0 => saveValidatorsInfo cdc db c c (some S)
  | n + 1 =>
    match saveValidatorsRange cdc rot db c S n with
    | (db1, .ok ()) => saveValidatorsInfo cdc db1 (c + ((n + 1 : Nat) : Int)) c (some (rot^[n + 1] S))
    | failed => failed

/-- The record `saveValidatorsInfo` writes at height `c+k` in that scenario. -/
def rangeRecord {V : Type} (rot : V → V) (c : Int) (S : V) (k : Nat) : ValidatorsInfo V :=
  if c + (k : Int) = c ∨ (c + (k : Int)).tmod 100000 = 0 then ⟨some (rot^[k] S), c⟩ else ⟨none, c⟩

/-- A store with a checkpoint: the set 5 embedded at the checkpoint height
100000 and a pointer record at height 100003, both with change height 1. -/
def checkpointStore : DB :=
  (saveValidatorsInfo (unaryCodec (ValidatorsInfo Nat))
    (saveValidatorsInfo (unaryCodec (ValidatorsInfo Nat)) DB.empty 100000 1 (some 5)).1
    100003 1 (some 8)).1

/-- A key for the canonical snapshot in concrete instances. -/
def sampleStateKey : Key := "stateKey".toList

/-- A state at the upper end of the int64 heights: the last block height is
`2^63 - 2` and the validators last changed at height 0. -/
def overflowState : State Nat Nat := ⟨9223372036854775806, none, none, 0, 0, 0⟩

/-- A state before the first block, whose next validators changed at height 2. -/
def genesisState : State Nat Nat := ⟨0, some 1, some 2, 2, 9, 1⟩

/-- A state after block 4. -/
def sampleState : State Nat Nat := ⟨4, some 1, some 2, 3, 9, 1⟩

instance instEncodableABCIResponses (T E B : Type) [Encodable T] [Encodable E] [Encodable B] :
    Encodable (ABCIResponses T E B) :=
  Encodable.ofLeftInjection (fun r => (r.DeliverTxs, r.EndBlock, r.BeginBlock))
    (fun q => some ⟨q.1, q.2.1, q.2.2⟩) (fun _ => rfl)

instance instEncodableTxResultIndex : Encodable TxResultIndex :=
  Encodable.ofLeftInjection (fun r => (r.BlockNum, r.TxIndex))
    (fun q => some ⟨q.1, q.2⟩) (fun _ => rfl)

/-- What `amino.Unmarshal` gives back for the encoding of ABCI responses whose
`DeliverTxs` is an allocated slice of length zero: the nil slice. -/
def ABCIResponses.nilIfEmpty {T E B : Type} (r : ABCIResponses T E B) : ABCIResponses T E B :=
  match r.DeliverTxs with
  | some [] => ⟨none, r.EndBlock, r.BeginBlock⟩
  | _ => r

/-- Modelled from the spec: the codec keeps no distinction between an absent
list and an allocated empty one (the comment of `NewABCIResponsesFromNum`: the
nil slice "makes Amino encoding/decoding consistent"); a value is read back
with the nil slice in the place of an empty one and is otherwise unchanged. -/
def Codec.ReadsEmptyAsNil {T E B : Type} (cdc : Codec (ABCIResponses T E B)) : Prop :=
  ∀ r, cdc.unmarshal (cdc.marshal r) = some r.nilIfEmpty

/-- A codec for concrete instances that reads an empty list back as the nil
list: the unary codec applied to the value with the nil list in its place. -/
def nilListCodec (T E B : Type) [Encodable T] [Encodable E] [Encodable B] :
    Codec (ABCIResponses T E B) :=
  ⟨fun r => (unaryCodec (ABCIResponses T E B)).marshal r.nilIfEmpty,
    (unaryCodec (ABCIResponses T E B)).unmarshal⟩

/-- A codec for concrete instances with values that do not decode: an encoding
starts with the byte 1, and nothing else decodes. -/
def taggedCodec (α : Type) [Encodable α] : Codec α :=
  ⟨fun a => 1 :: List.replicate (Encodable.encode a) 0,
    fun b =>
      match b with
      | [] => none
      | t :: rest => if t = 1 then Encodable.decode rest.length else none⟩

/-- A store holding under the key of the hash `aa` a value that `taggedCodec`
does not decode. -/
def corruptedIndexStore : DB := DB.empty.Set (CalcTxResultKey [0xAA]) [0]

/-- A store built by two calls of `saveValidatorsInfo`: the set 0 at its change
height -1, and a pointer record at the greatest int64 height with change
height -1. -/
def negativeChangeStore : DB :=
  (saveValidatorsInfo (unaryCodec (ValidatorsInfo Nat))
    (saveValidatorsInfo (unaryCodec (ValidatorsInfo Nat)) DB.empty (-1) (-1) (some 0)).1
    9223372036854775807 (-1) (some 1)).1

/-- The `maxAlloc` of the Go run time on 64-bit platforms, 2^48 bytes: no slice
of elements of one byte or more is longer. -/
def maxAlloc64 : Nat := 281474976710656

/-- An `IsEmpty` for concrete instances: the state holds no validator set. -/
def validatorsNil {V P : Type} (state : State V P) : Bool := state.Validators.isNone

/-- A `MakeGenesisState` for concrete instances: every document gives the state
before the first block. -/
def sampleMakeGenesisState (_ : Unit) : Option (State Nat Nat) := some genesisState

/-- A store in which the params 7 are embedded at their change height 5. -/
def paramsStore : DB :=
  saveConsensusParamsInfo (unaryCodec (ConsensusParamsInfo Nat)) DB.empty 5 5 7

/-- A store in which the params 7 are embedded at their change height 0. -/
def paramsAtZeroStore : DB :=
  saveConsensusParamsInfo (unaryCodec (ConsensusParamsInfo Nat)) DB.empty 0 0 7

/-- A store with a chain of two pointer records: `saveConsensusParamsInfo` called
for height 5 with change height 3 and for height 10 with change height 5, both
with the params 9; no record embeds params. -/
def pointerChainStore : DB :=
  saveConsensusParamsInfo (unaryCodec (ConsensusParamsInfo Nat))
    (saveConsensusParamsInfo (unaryCodec (ConsensusParamsInfo Nat)) DB.empty 5 3 9) 10 5 9

/-- A store of an old chain: the set 0 saved at its change height 1, a pointer
record saved at height 250000, and nothing saved at the checkpoint height
200000 in between. -/
def oldChainStore : DB :=
  (saveValidatorsInfo (unaryCodec (ValidatorsInfo Nat))
    (saveValidatorsInfo (unaryCodec (ValidatorsInfo Nat)) DB.empty 1 1 (some 0)).1
    250000 1 (some 249999)).1

/-- A store with a pointer record under the key of the least int64 height whose
change height is 1, and the set 0 embedded at height 1. -/
def minHeightStore : DB :=
  ((DB.empty.Set (calcValidatorsKey 1)
      ((unaryCodec (ValidatorsInfo Nat)).marshal ⟨some 0, 1⟩)).Set
    (calcValidatorsKey (-9223372036854775808))
      ((unaryCodec (ValidatorsInfo Nat)).marshal ⟨none, 1⟩))

/-! ## Lemmas: the codec for concrete instances -/

theorem unaryCodec_roundTrip (α : Type) [Encodable α] : (unaryCodec α).RoundTrip := by
  intro a
  simp [unaryCodec]

theorem unaryCodec_emptyOnlyFor (α : Type) [Encodable α] (zero : α)
    (hz : Encodable.encode zero = 0) : (unaryCodec α).EmptyOnlyFor zero := by
  intro a ha
  have h0 : Encodable.encode a = 0 := by
    have := congrArg List.length ha
    simpa [unaryCodec] using this
  exact Encodable.encode_injective (h0.trans hz.symm)

theorem encode_validatorsInfo_zero :
    Encodable.encode (ValidatorsInfo.zero Nat) = 0 := by
  simp [ValidatorsInfo.zero, instEncodableValidatorsInfo, Encodable.ofLeftInjection]
  rfl

theorem encode_state_zero :
    Encodable.encode (State.zero Nat Nat) = 0 := by
  simp [State.zero, instEncodableState, Encodable.ofLeftInjection]
  rfl

/-! ## Lemmas: hexadecimal formatting and keys -/

theorem hexDigitVal_digitChar (d : Nat) (hd : d < 16) : hexDigitVal (Nat.digitChar d) = d := by
  interval_cases d <;> rfl

theorem digitChar_ne_minus (d : Nat) (hd : d < 16) : Nat.digitChar d ≠ '-' := by
  interval_cases d <;> decide

theorem toDigitsCore_spec (fuel : Nat) :
    ∀ (n : Nat) (ds : List Char), n < fuel →
      ∃ l : List Char, Nat.toDigitsCore 16 fuel n ds = l ++ ds ∧ hexVal l = n ∧ l ≠ [] ∧
        ∀ c ∈ l, c ≠ '-' := by
  induction fuel with
  | zero => intro n ds h; omega
  | succ fuel ih =>
    intro n ds hn
    have hlt : n % 16 < 16 := Nat.mod_lt _ (by norm_num)
    by_cases h0 : n / 16 = 0
    · refine ⟨[Nat.digitChar (n % 16)], ?_, ?_, by simp, ?_⟩
      · simp [Nat.toDigitsCore, h0]
      · have hn16 : n < 16 := by
          rcases Nat.div_eq_zero_iff (by norm_num : 0 < 16) |>.mp h0 with h
          exact h
        have hd := hexDigitVal_digitChar _ hlt
        rw [Nat.mod_eq_of_lt hn16] at hd
        simp [hexVal, hd, Nat.mod_eq_of_lt hn16]
      · intro c hc
        simp at hc
        subst hc
        exact digitChar_ne_minus _ hlt
    · have hlt2 : n / 16 < fuel := by omega
      obtain ⟨l, hl, hv, _, hc⟩ := ih (n / 16) (Nat.digitChar (n % 16) :: ds) hlt2
      refine ⟨l ++ [Nat.digitChar (n % 16)], ?_, ?_, by simp, ?_⟩
      · simp [Nat.toDigitsCore, h0, hl]
      · have : hexVal (l ++ [Nat.digitChar (n % 16)]) = 16 * hexVal l + n % 16 := by
          simp [hexVal, List.foldl_append, hexDigitVal_digitChar _ hlt]
        rw [this, hv]
        omega
      · intro c hmem
        rcases List.mem_append.mp hmem with h | h
        · exact hc c h
        · simp at h
          subst h
          exact digitChar_ne_minus _ hlt

theorem toDigits_spec (n : Nat) :
    hexVal (Nat.toDigits 16 n) = n ∧ Nat.toDigits 16 n ≠ [] ∧
      ∀ c ∈ Nat.toDigits 16 n, c ≠ '-' := by
  obtain ⟨l, hl, hv, hne, hc⟩ := toDigitsCore_spec (n + 1) n [] (Nat.lt_succ_self n)
  have : Nat.toDigits 16 n = l := by simp [Nat.toDigits, hl]
  rw [this]
  exact ⟨hv, hne, hc⟩

theorem toDigits_injective {a b : Nat} (h : Nat.toDigits 16 a = Nat.toDigits 16 b) : a = b := by
  have ha := (toDigits_spec a).1
  rw [h, (toDigits_spec b).1] at ha
  exact ha.symm

theorem toDigits_ne_minus_cons (n : Nat) (l : List Char) : Nat.toDigits 16 n ≠ '-' :: l := by
  intro h
  have hc := (toDigits_spec n).2.2 '-'
  rw [h] at hc
  exact hc (by simp) rfl

theorem fmtHex_injective {a b : Int} (h : fmtHex a = fmtHex b) : a = b := by
  unfold fmtHex at h
  by_cases ha : a < 0 <;> by_cases hb : b < 0
  · simp only [ha, hb, if_true] at h
    have := toDigits_injective (List.cons_injective h)
    omega
  · simp only [ha, hb, if_true, if_false] at h
    exact absurd h.symm (toDigits_ne_minus_cons _ _)
  · simp only [ha, hb, if_true, if_false] at h
    exact absurd h (toDigits_ne_minus_cons _ _)
  · simp only [ha, hb, if_false] at h
    have := toDigits_injective h
    omega

theorem calcValidatorsKey_injective {a b : Int}
    (h : calcValidatorsKey a = calcValidatorsKey b) : a = b :=
  fmtHex_injective (List.append_cancel_left h)

theorem calcValidatorsKey_ne_calcConsensusParamsKey (a b : Int) :
    calcValidatorsKey a ≠ calcConsensusParamsKey b := by
  intro h
  simp [calcValidatorsKey, calcConsensusParamsKey] at h

/-! ## Lemmas: the backend and the loaders -/

theorem DB.Get_Set (db : DB) (key k : Key) (value : Bytes) :
    (db.Set key value).Get k = if k = key then some value else db.Get k := rfl

theorem DB.Get_SetSync (db : DB) (key k : Key) (value : Bytes) :
    (db.SetSync key value).Get k = if k = key then some value else db.Get k := rfl

theorem loadValidatorsInfo_of_empty {V : Type} (cdc : Codec (ValidatorsInfo V)) (db : DB)
    (height : Int) (h : bufLen (db.Get (calcValidatorsKey height)) = 0) :
    loadValidatorsInfo cdc db height = .ok none := by
  simp [loadValidatorsInfo, h]

theorem loadValidatorsInfo_of_marshal {V : Type} (cdc : Codec (ValidatorsInfo V)) (db : DB)
    (height : Int) (r : ValidatorsInfo V) (hrt : cdc.RoundTrip)
    (hne : cdc.EmptyOnlyFor (ValidatorsInfo.zero V)) (hr : r ≠ ValidatorsInfo.zero V)
    (hget : db.Get (calcValidatorsKey height) = some (cdc.marshal r)) :
    loadValidatorsInfo cdc db height = .ok (some r) := by
  have hlen : bufLen (some (cdc.marshal r)) ≠ 0 := by
    intro h0
    exact hr (hne r (List.length_eq_zero.mp h0))
  simp [loadValidatorsInfo, hget, hlen, hrt r]

theorem loadValidatorsInfo_cases {V : Type} (cdc : Codec (ValidatorsInfo V)) (db : DB)
    (height : Int) :
    (bufLen (db.Get (calcValidatorsKey height)) = 0 ∧
        loadValidatorsInfo cdc db height = .ok none) ∨
    (bufLen (db.Get (calcValidatorsKey height)) ≠ 0 ∧
        loadValidatorsInfo cdc db height = .exit) ∨
    (bufLen (db.Get (calcValidatorsKey height)) ≠ 0 ∧
        ∃ v, loadValidatorsInfo cdc db height = .ok (some v)) := by
  by_cases h : bufLen (db.Get (calcValidatorsKey height)) = 0
  · exact Or.inl ⟨h, by simp [loadValidatorsInfo, h]⟩
  · cases hu : cdc.unmarshal ((db.Get (calcValidatorsKey height)).getD []) with
    | none => exact Or.inr (Or.inl ⟨h, by simp [loadValidatorsInfo, h, hu]⟩)
    | some v => exact Or.inr (Or.inr ⟨h, v, by simp [loadValidatorsInfo, h, hu]⟩)

theorem resolveValidators_err {V : Type} (cdc : Codec (ValidatorsInfo V)) (db : DB)
    (height : Int) (e : StoreError) (h : resolveValidators cdc db height = .err e) :
    bufLen (db.Get (calcValidatorsKey height)) = 0 := by
  rcases loadValidatorsInfo_cases cdc db height with ⟨h0, _⟩ | ⟨_, h1⟩ | ⟨_, v, h1⟩
  · exact h0
  · simp [resolveValidators, h1] at h
  · exfalso
    obtain ⟨vs, c⟩ := v
    cases vs with
    | some vs => simp [resolveValidators, h1] at h
    | none =>
      rcases loadValidatorsInfo_cases cdc db (lastStoredHeightFor height c) with
        ⟨_, h2⟩ | ⟨_, h2⟩ | ⟨_, ⟨vs2, c2⟩, h2⟩
      · rcases loadValidatorsInfo_cases cdc db c with ⟨_, h3⟩ | ⟨_, h3⟩ | ⟨_, ⟨vs3, c3⟩, h3⟩
        · simp [resolveValidators, h1, h2, h3] at h
        · simp [resolveValidators, h1, h2, h3] at h
        · cases vs3 <;> simp [resolveValidators, h1, h2, h3] at h
      · simp [resolveValidators, h1, h2] at h
      · cases vs2 with
        | some vs2 => simp [resolveValidators, h1, h2] at h
        | none =>
          rcases loadValidatorsInfo_cases cdc db c with
            ⟨_, h3⟩ | ⟨_, h3⟩ | ⟨_, ⟨vs3, c3⟩, h3⟩
          · simp [resolveValidators, h1, h2, h3] at h
          · simp [resolveValidators, h1, h2, h3] at h
          · cases vs3 <;> simp [resolveValidators, h1, h2, h3] at h

theorem saveValidatorsInfo_of_le {V : Type} (cdc : Codec (ValidatorsInfo V)) (db : DB)
    (height lastHeightChanged : Int) (valSet : Option V) (h : lastHeightChanged ≤ height) :
    saveValidatorsInfo cdc db height lastHeightChanged valSet =
      (db.Set (calcValidatorsKey height)
        (cdc.marshal (if height = lastHeightChanged ∨ height.tmod 100000 = 0 then
          ⟨valSet, lastHeightChanged⟩ else ⟨none, lastHeightChanged⟩)), .ok ()) := by
  have hn : ¬ lastHeightChanged > height := by omega
  simp [saveValidatorsInfo, hn, valSetCheckpointInterval]

theorem wrapInt64_of_range (x : Int) (hlo : -2 ^ 63 ≤ x) (hhi : x < 2 ^ 63) : wrapInt64 x = x := by
  unfold wrapInt64
  omega

theorem lastStoredHeightFor_eq (h c : Int) :
    lastStoredHeightFor h c = max (h - h.tmod 100000) c := rfl

theorem sub_lastStoredHeightFor_ge (h c : Int) (hh : 0 ≤ h) (hc64 : c < 2 ^ 63) :
    -2 ^ 63 ≤ h - lastStoredHeightFor h c := by
  rw [lastStoredHeightFor_eq, Int.tmod_eq_emod hh (by norm_num)]
  rcases max_cases (h - h % 100000) c with ⟨hm, _⟩ | ⟨hm, _⟩ <;> rw [hm] <;> omega

theorem lacksSet_iff {V : Type} (o : Outcome (Option (ValidatorsInfo V))) :
    lacksSet o = true ↔ (o = .ok none ∨ ∃ c, o = .ok (some ⟨none, c⟩)) := by
  constructor
  · intro h
    match o, h with
    | .ok none, _ => exact Or.inl rfl
    | .ok (some ⟨none, c⟩), _ => exact Or.inr ⟨c, rfl⟩
  · rintro (h | ⟨c, h⟩) <;> rw [h] <;> rfl

theorem resolveValidators_at_checkpoint {V : Type} (cdc : Codec (ValidatorsInfo V)) (db : DB)
    (h c : Int) (V0 : V) (c0 : Int)
    (hrec : loadValidatorsInfo cdc db h = .ok (some ⟨none, c⟩))
    (hr : loadValidatorsInfo cdc db (lastStoredHeightFor h c) = .ok (some ⟨some V0, c0⟩)) :
    resolveValidators cdc db h = .ok (V0, some (sub64 h (lastStoredHeightFor h c))) := by
  simp [resolveValidators, hrec, hr]

theorem resolveValidators_at_change {V : Type} (cdc : Codec (ValidatorsInfo V)) (db : DB)
    (h c : Int) (V1 : V) (c1 : Int)
    (hrec : loadValidatorsInfo cdc db h = .ok (some ⟨none, c⟩))
    (hr : lacksSet (loadValidatorsInfo cdc db (lastStoredHeightFor h c)) = true)
    (hc : loadValidatorsInfo cdc db c = .ok (some ⟨some V1, c1⟩)) :
    resolveValidators cdc db h = .ok (V1, some (sub64 h c)) := by
  rcases (lacksSet_iff _).mp hr with hr | ⟨c2, hr⟩ <;> simp [resolveValidators, hrec, hr, hc]

theorem resolveValidators_unresolved {V : Type} (cdc : Codec (ValidatorsInfo V)) (db : DB)
    (h c : Int)
    (hrec : loadValidatorsInfo cdc db h = .ok (some ⟨none, c⟩))
    (hr : lacksSet (loadValidatorsInfo cdc db (lastStoredHeightFor h c)) = true)
    (hc : lacksSet (loadValidatorsInfo cdc db c) = true) :
    resolveValidators cdc db h = .panic (.couldntFindValidators c h) := by
  rcases (lacksSet_iff _).mp hr with hr | ⟨c2, hr⟩ <;>
    rcases (lacksSet_iff _).mp hc with hc | ⟨c3, hc⟩ <;>
    simp [resolveValidators, hrec, hr, hc]

theorem calcValidatorsKey_inj (a b : Int) : calcValidatorsKey a = calcValidatorsKey b ↔ a = b :=
  ⟨calcValidatorsKey_injective, fun h => by rw [h]⟩

theorem marshal_ne_nil {V : Type} (cdc : Codec (ValidatorsInfo V))
    (hne : cdc.EmptyOnlyFor (ValidatorsInfo.zero V)) (r : ValidatorsInfo V)
    (hr : r.LastHeightChanged ≠ 0) : cdc.marshal r ≠ [] := by
  intro h
  have := hne r h
  rw [this] at hr
  exact hr rfl

theorem unary_validatorsInfo_emptyOnlyFor :
    (unaryCodec (ValidatorsInfo Nat)).EmptyOnlyFor (ValidatorsInfo.zero Nat) :=
  unaryCodec_emptyOnlyFor _ _ encode_validatorsInfo_zero

theorem Get_saveValidatorsInfo_same {V : Type} (cdc : Codec (ValidatorsInfo V)) (db : DB)
    (h c : Int) (valSet : Option V) (hle : c ≤ h) :
    (saveValidatorsInfo cdc db h c valSet).1.Get (calcValidatorsKey h) =
      some (cdc.marshal (if h = c ∨ h.tmod 100000 = 0 then ⟨valSet, c⟩ else ⟨none, c⟩)) := by
  rw [saveValidatorsInfo_of_le cdc db h c valSet hle]
  simp only [DB.Get_Set, if_true]

theorem Get_saveValidatorsInfo_other {V : Type} (cdc : Codec (ValidatorsInfo V)) (db : DB)
    (h c : Int) (valSet : Option V) (k : Key) (hk : k ≠ calcValidatorsKey h) :
    (saveValidatorsInfo cdc db h c valSet).1.Get k = db.Get k := by
  unfold saveValidatorsInfo
  split
  · rfl
  · simp only [DB.Get_Set, hk, if_false]

theorem oldChainStore_load_250000 :
    loadValidatorsInfo (unaryCodec (ValidatorsInfo Nat)) oldChainStore 250000
      = .ok (some ⟨none, 1⟩) := by
  apply loadValidatorsInfo_of_marshal _ _ _ _ (unaryCodec_roundTrip _)
    unary_validatorsInfo_emptyOnlyFor
  · simp [ValidatorsInfo.zero]
  · unfold oldChainStore
    rw [Get_saveValidatorsInfo_same _ _ _ _ _ (by decide), if_neg (by decide)]

theorem oldChainStore_load_200000 :
    loadValidatorsInfo (unaryCodec (ValidatorsInfo Nat)) oldChainStore 200000 = .ok none := by
  apply loadValidatorsInfo_of_empty
  unfold oldChainStore
  rw [Get_saveValidatorsInfo_other _ _ _ _ _ _
      (fun h => absurd (calcValidatorsKey_injective h) (by decide)),
    Get_saveValidatorsInfo_other _ _ _ _ _ _
      (fun h => absurd (calcValidatorsKey_injective h) (by decide))]
  rfl

theorem oldChainStore_load_1 :
    loadValidatorsInfo (unaryCodec (ValidatorsInfo Nat)) oldChainStore 1
      = .ok (some ⟨some 0, 1⟩) := by
  apply loadValidatorsInfo_of_marshal _ _ _ _ (unaryCodec_roundTrip _)
    unary_validatorsInfo_emptyOnlyFor
  · simp [ValidatorsInfo.zero]
  · unfold oldChainStore
    rw [Get_saveValidatorsInfo_other _ _ _ _ _ _
        (fun h => absurd (calcValidatorsKey_injective h) (by decide)),
      Get_saveValidatorsInfo_same _ _ _ _ _ (by decide), if_pos (by decide)]

theorem minHeightStore_load_min :
    loadValidatorsInfo (unaryCodec (ValidatorsInfo Nat)) minHeightStore (-9223372036854775808)
      = .ok (some ⟨none, 1⟩) := by
  apply loadValidatorsInfo_of_marshal _ _ _ _ (unaryCodec_roundTrip _)
    unary_validatorsInfo_emptyOnlyFor
  · simp [ValidatorsInfo.zero]
  · unfold minHeightStore
    rw [DB.Get_Set, if_pos rfl]

theorem minHeightStore_load_1 :
    loadValidatorsInfo (unaryCodec (ValidatorsInfo Nat)) minHeightStore 1
      = .ok (some ⟨some 0, 1⟩) := by
  apply loadValidatorsInfo_of_marshal _ _ _ _ (unaryCodec_roundTrip _)
    unary_validatorsInfo_emptyOnlyFor
  · simp [ValidatorsInfo.zero]
  · unfold minHeightStore
    rw [DB.Get_Set, if_neg (fun h => absurd (calcValidatorsKey_injective h) (by decide)),
      DB.Get_Set, if_pos rfl]

theorem checkpointStore_load_100003 :
    loadValidatorsInfo (unaryCodec (ValidatorsInfo Nat)) checkpointStore 100003
      = .ok (some ⟨none, 1⟩) := by
  apply loadValidatorsInfo_of_marshal _ _ _ _ (unaryCodec_roundTrip _)
    unary_validatorsInfo_emptyOnlyFor
  · simp [ValidatorsInfo.zero]
  · unfold checkpointStore
    rw [Get_saveValidatorsInfo_same _ _ _ _ _ (by decide), if_neg (by decide)]

theorem checkpointStore_load_100000 :
    loadValidatorsInfo (unaryCodec (ValidatorsInfo Nat)) checkpointStore 100000
      = .ok (some ⟨some 5, 1⟩) := by
  apply loadValidatorsInfo_of_marshal _ _ _ _ (unaryCodec_roundTrip _)
    unary_validatorsInfo_emptyOnlyFor
  · simp [ValidatorsInfo.zero]
  · unfold checkpointStore
    rw [Get_saveValidatorsInfo_other _ _ _ _ _ _
        (fun h => absurd (calcValidatorsKey_injective h) (by decide)),
      Get_saveValidatorsInfo_same _ _ _ _ _ (by decide), if_pos (by decide)]

theorem saveValidatorsRange_spec {V : Type} (cdc : Codec (ValidatorsInfo V)) (rot : V → V)
    (db : DB) (c : Int) (S : V) (n : Nat) :
    (saveValidatorsRange cdc rot db c S n).2 = .ok () ∧
    ∀ k : Nat, k ≤ n →
      (saveValidatorsRange cdc rot db c S n).1.Get (calcValidatorsKey (c + (k : Int)))
        = some (cdc.marshal (rangeRecord rot c S k)) := by
  induction n with
  | zero =>
    have hs := saveValidatorsInfo_of_le cdc db c c (some S) (le_refl c)
    refine ⟨by simp [saveValidatorsRange, hs], ?_⟩
    intro k hk
    have hk0 : k = 0 := by omega
    subst hk0
    simp [saveValidatorsRange, hs, DB.Get_Set, rangeRecord]
  | succ n ih =>
    obtain ⟨hok, hget⟩ := ih
    have hle : c ≤ c + ((n + 1 : Nat) : Int) := by omega
    have hstep : saveValidatorsRange cdc rot db c S (n + 1) =
        saveValidatorsInfo cdc (saveValidatorsRange cdc rot db c S n).1
          (c + ((n + 1 : Nat) : Int)) c (some (rot^[n + 1] S)) := by
      rw [saveValidatorsRange]
      cases hp : saveValidatorsRange cdc rot db c S n with
      | mk d o =>
        rw [hp] at hok
        simp only at hok
        subst hok
        rfl
    rw [hstep, saveValidatorsInfo_of_le cdc _ _ c _ hle]
    refine ⟨rfl, ?_⟩
    intro k hk
    by_cases hkn : k = n + 1
    · subst hkn
      simp only [DB.Get_Set, if_true, rangeRecord]
    · have hne : c + (k : Int) ≠ c + ((n + 1 : Nat) : Int) := by omega
      have hkey : calcValidatorsKey (c + (k : Int)) ≠ calcValidatorsKey (c + ((n + 1 : Nat) : Int)) :=
        fun h => hne (calcValidatorsKey_injective h)
      simp only [DB.Get_Set, hkey, if_false]
      exact hget k (by omega)

theorem iterate_toNat_sub {V : Type} (rot : V → V) (S : V) (n k : Nat) (hk : k ≤ n) :
    IncrementProposerPriority rot (rot^[k] S) ((n : Int) - (k : Int)) = rot^[n] S := by
  have h1 : ((n : Int) - (k : Int)).toNat = n - k := by omega
  unfold IncrementProposerPriority
  rw [h1, ← Function.iterate_add_apply]
  congr 1
  omega

theorem saveState_of_ok {V P : Type} [Inhabited P] (vc : Codec (ValidatorsInfo V))
    (pc : Codec (ConsensusParamsInfo P)) (sc : Codec (State V P)) (db : DB) (state : State V P)
    (key : Key) (hle : state.LastHeightValidatorsChanged ≤ add64 (add64 state.LastBlockHeight 1) 1) :
    saveState vc pc sc db state key =
      ((((if add64 state.LastBlockHeight 1 = 1 then
            db.Set (calcValidatorsKey 1) (vc.marshal ⟨state.Validators, 1⟩) else db).Set
          (calcValidatorsKey (add64 (add64 state.LastBlockHeight 1) 1))
          (vc.marshal
            (if add64 (add64 state.LastBlockHeight 1) 1 = state.LastHeightValidatorsChanged ∨
                (add64 (add64 state.LastBlockHeight 1) 1).tmod 100000 = 0 then
              ⟨state.NextValidators, state.LastHeightValidatorsChanged⟩
            else ⟨none, state.LastHeightValidatorsChanged⟩))).Set
          (calcConsensusParamsKey (add64 state.LastBlockHeight 1))
          (pc.marshal
            (if state.LastHeightConsensusParamsChanged = add64 state.LastBlockHeight 1 then
              ⟨state.ConsensusParams, state.LastHeightConsensusParamsChanged⟩
            else ⟨default, state.LastHeightConsensusParamsChanged⟩))).SetSync key
          (sc.marshal state), .ok ()) := by
  unfold saveState
  by_cases h1 : add64 state.LastBlockHeight 1 = 1
  · simp only [h1, if_true]
    rw [saveValidatorsInfo_of_le vc db 1 1 state.Validators (le_refl 1)]
    simp only [true_or, if_true]
    rw [h1] at hle
    rw [saveValidatorsInfo_of_le vc _ _ _ state.NextValidators hle]
    rfl
  · simp only [h1, if_false]
    rw [saveValidatorsInfo_of_le vc _ _ _ state.NextValidators hle]
    rfl

theorem saveState_ok_le {V P : Type} [Inhabited P] (vc : Codec (ValidatorsInfo V))
    (pc : Codec (ConsensusParamsInfo P)) (sc : Codec (State V P)) (db : DB) (state : State V P)
    (key : Key) (hok : (saveState vc pc sc db state key).2 = .ok ()) :
    state.LastHeightValidatorsChanged ≤ add64 (add64 state.LastBlockHeight 1) 1 := by
  by_contra hgt
  have hgt2 : state.LastHeightValidatorsChanged > add64 (add64 state.LastBlockHeight 1) 1 := by
    omega
  revert hok
  unfold saveState
  by_cases h1 : add64 state.LastBlockHeight 1 = 1
  · simp only [h1, if_true]
    rw [saveValidatorsInfo_of_le vc db 1 1 state.Validators (le_refl 1)]
    rw [h1] at hgt2
    simp [saveValidatorsInfo, hgt2]
  · simp only [h1, if_false]
    simp [saveValidatorsInfo, hgt2]

theorem genesisState_save_ok :
    (saveState (unaryCodec (ValidatorsInfo Nat)) (unaryCodec (ConsensusParamsInfo Nat))
      (unaryCodec (State Nat Nat)) DB.empty genesisState sampleStateKey).2 = .ok () := by
  have hle : genesisState.LastHeightValidatorsChanged
      ≤ add64 (add64 genesisState.LastBlockHeight 1) 1 := by decide
  rw [saveState_of_ok _ _ _ _ _ _ hle]

theorem LoadState_SaveState_of_ok {V P : Type} [Inhabited P] (stateKey : Key)
    (vc : Codec (ValidatorsInfo V)) (pc : Codec (ConsensusParamsInfo P)) (sc : Codec (State V P))
    (db : DB) (state : State V P)
    (hok : (SaveState stateKey vc pc sc db state).2 = .ok ())
    (hrt : sc.RoundTrip) (hne : sc.EmptyOnlyFor (State.zero V P)) :
    LoadState stateKey sc (SaveState stateKey vc pc sc db state).1 = .ok state := by
  unfold SaveState at hok ⊢
  have hle := saveState_ok_le vc pc sc db state stateKey hok
  unfold LoadState
  rw [saveState_of_ok vc pc sc db state stateKey hle]
  unfold loadState
  simp only [DB.Get_SetSync, if_true]
  by_cases he : sc.marshal state = []
  · have hz := hne state he
    rw [he]
    simp only [bufLen, List.length_nil, if_true]
    rw [hz]
  · have hlen : bufLen (some (sc.marshal state)) ≠ 0 := by
      simpa [bufLen] using he
    simp [hlen, hrt state]

theorem unary_state_emptyOnlyFor :
    (unaryCodec (State Nat Nat)).EmptyOnlyFor (State.zero Nat Nat) :=
  unaryCodec_emptyOnlyFor _ _ encode_state_zero

theorem sampleGenesis_first_call :
    LoadStateFromDBOrGenesisDoc sampleStateKey (unaryCodec (ValidatorsInfo Nat))
      (unaryCodec (ConsensusParamsInfo Nat)) (unaryCodec (State Nat Nat)) validatorsNil
      sampleMakeGenesisState DB.empty () =
    ((SaveState sampleStateKey (unaryCodec (ValidatorsInfo Nat))
      (unaryCodec (ConsensusParamsInfo Nat)) (unaryCodec (State Nat Nat)) DB.empty
      genesisState).1, .ok genesisState) := by
  have hL : LoadState sampleStateKey (unaryCodec (State Nat Nat)) DB.empty
      = .ok (State.zero Nat Nat) := rfl
  have hE : validatorsNil (State.zero Nat Nat) = true := rfl
  have hS : (SaveState sampleStateKey (unaryCodec (ValidatorsInfo Nat))
      (unaryCodec (ConsensusParamsInfo Nat)) (unaryCodec (State Nat Nat)) DB.empty
      genesisState).2 = .ok () := genesisState_save_ok
  unfold LoadStateFromDBOrGenesisDoc
  rw [hL]
  simp only [hE, if_true, sampleMakeGenesisState]
  cases hp : SaveState sampleStateKey (unaryCodec (ValidatorsInfo Nat))
      (unaryCodec (ConsensusParamsInfo Nat)) (unaryCodec (State Nat Nat)) DB.empty
      genesisState with
  | mk d o =>
    rw [hp] at hS
    simp only at hS
    subst hS
    rfl

theorem calcConsensusParamsKey_injective {a b : Int}
    (h : calcConsensusParamsKey a = calcConsensusParamsKey b) : a = b :=
  fmtHex_injective (List.append_cancel_left h)

theorem encode_consensusParamsInfo_zero :
    Encodable.encode (ConsensusParamsInfo.zero Nat) = 0 := by
  simp [ConsensusParamsInfo.zero, instEncodableConsensusParamsInfo, Encodable.ofLeftInjection]
  rfl

theorem unary_consensusParamsInfo_emptyOnlyFor :
    (unaryCodec (ConsensusParamsInfo Nat)).EmptyOnlyFor (ConsensusParamsInfo.zero Nat) :=
  unaryCodec_emptyOnlyFor _ _ encode_consensusParamsInfo_zero

theorem loadConsensusParamsInfo_of_empty {P : Type} (cdc : Codec (ConsensusParamsInfo P))
    (db : DB) (height : Int) (h : bufLen (db.Get (calcConsensusParamsKey height)) = 0) :
    loadConsensusParamsInfo cdc db height = .ok none := by
  simp [loadConsensusParamsInfo, h]

theorem loadConsensusParamsInfo_of_marshal {P : Type} [Inhabited P]
    (cdc : Codec (ConsensusParamsInfo P)) (db : DB) (height : Int) (r : ConsensusParamsInfo P)
    (hrt : cdc.RoundTrip) (hne : cdc.EmptyOnlyFor (ConsensusParamsInfo.zero P))
    (hr : r ≠ ConsensusParamsInfo.zero P)
    (hget : db.Get (calcConsensusParamsKey height) = some (cdc.marshal r)) :
    loadConsensusParamsInfo cdc db height = .ok (some r) := by
  have hlen : bufLen (some (cdc.marshal r)) ≠ 0 := by
    intro h0
    exact hr (hne r (List.length_eq_zero.mp h0))
  simp [loadConsensusParamsInfo, hget, hlen, hrt r]

theorem loadConsensusParamsInfo_congr {P : Type} (cdc : Codec (ConsensusParamsInfo P))
    (db db2 : DB) (height : Int)
    (h : db2.Get (calcConsensusParamsKey height) = db.Get (calcConsensusParamsKey height)) :
    loadConsensusParamsInfo cdc db2 height = loadConsensusParamsInfo cdc db height := by
  simp [loadConsensusParamsInfo, h]

theorem Get_saveConsensusParamsInfo_same {P : Type} [Inhabited P]
    (cdc : Codec (ConsensusParamsInfo P)) (db : DB) (nextHeight changeHeight : Int) (params : P) :
    (saveConsensusParamsInfo cdc db nextHeight changeHeight params).Get
        (calcConsensusParamsKey nextHeight) =
      some (cdc.marshal
        (if changeHeight = nextHeight then ⟨params, changeHeight⟩ else ⟨default, changeHeight⟩)) := by
  simp only [saveConsensusParamsInfo, DB.Get_Set, if_true]

theorem Get_saveConsensusParamsInfo_other {P : Type} [Inhabited P]
    (cdc : Codec (ConsensusParamsInfo P)) (db : DB) (nextHeight changeHeight : Int) (params : P)
    (k : Key) (hk : k ≠ calcConsensusParamsKey nextHeight) :
    (saveConsensusParamsInfo cdc db nextHeight changeHeight params).Get k = db.Get k := by
  simp only [saveConsensusParamsInfo, DB.Get_Set, hk, if_false]

theorem loadConsensusParamsInfo_after_save {P : Type} [Inhabited P]
    (cdc : Codec (ConsensusParamsInfo P)) (db : DB) (nextHeight changeHeight : Int) (params : P)
    (hrt : cdc.RoundTrip) (hne : cdc.EmptyOnlyFor (ConsensusParamsInfo.zero P))
    (hc : changeHeight ≠ 0) :
    loadConsensusParamsInfo cdc (saveConsensusParamsInfo cdc db nextHeight changeHeight params)
        nextHeight =
      .ok (some
        (if changeHeight = nextHeight then ⟨params, changeHeight⟩ else ⟨default, changeHeight⟩)) := by
  refine loadConsensusParamsInfo_of_marshal cdc _ _ _ hrt hne ?_
    (Get_saveConsensusParamsInfo_same cdc db nextHeight changeHeight params)
  intro hz
  have hl : (if changeHeight = nextHeight then (⟨params, changeHeight⟩ : ConsensusParamsInfo P)
      else ⟨default, changeHeight⟩).LastHeightChanged = changeHeight := by
    split <;> rfl
  rw [hz] at hl
  exact hc hl.symm

theorem loadConsensusParamsInfo_save_other {P : Type} [Inhabited P]
    (cdc : Codec (ConsensusParamsInfo P)) (db : DB) (nextHeight changeHeight : Int) (params : P)
    (height : Int) (hh : height ≠ nextHeight) :
    loadConsensusParamsInfo cdc (saveConsensusParamsInfo cdc db nextHeight changeHeight params)
        height = loadConsensusParamsInfo cdc db height :=
  loadConsensusParamsInfo_congr cdc db _ height
    (Get_saveConsensusParamsInfo_other cdc db nextHeight changeHeight params _
      (fun h => hh (calcConsensusParamsKey_injective h)))

theorem paramsStore_load_5 :
    loadConsensusParamsInfo (unaryCodec (ConsensusParamsInfo Nat)) paramsStore 5
      = .ok (some ⟨7, 5⟩) := by
  have h := loadConsensusParamsInfo_after_save (unaryCodec (ConsensusParamsInfo Nat)) DB.empty
    5 5 7 (unaryCodec_roundTrip _) unary_consensusParamsInfo_emptyOnlyFor (by decide)
  rw [if_pos rfl] at h
  exact h

theorem paramsAtZeroStore_load_0 :
    loadConsensusParamsInfo (unaryCodec (ConsensusParamsInfo Nat)) paramsAtZeroStore 0
      = .ok (some ⟨7, 0⟩) := by
  refine loadConsensusParamsInfo_of_marshal _ _ _ _ (unaryCodec_roundTrip _)
    unary_consensusParamsInfo_emptyOnlyFor ?_ ?_
  · simp [ConsensusParamsInfo.zero]
  · unfold paramsAtZeroStore
    rw [Get_saveConsensusParamsInfo_same, if_pos rfl]

theorem pointerChainStore_load_10 :
    loadConsensusParamsInfo (unaryCodec (ConsensusParamsInfo Nat)) pointerChainStore 10
      = .ok (some ⟨0, 5⟩) := by
  have h := loadConsensusParamsInfo_after_save (unaryCodec (ConsensusParamsInfo Nat))
    (saveConsensusParamsInfo (unaryCodec (ConsensusParamsInfo Nat)) DB.empty 5 3 9)
    10 5 9 (unaryCodec_roundTrip _) unary_consensusParamsInfo_emptyOnlyFor (by decide)
  rw [if_neg (by decide)] at h
  exact h

theorem pointerChainStore_load_5 :
    loadConsensusParamsInfo (unaryCodec (ConsensusParamsInfo Nat)) pointerChainStore 5
      = .ok (some ⟨0, 3⟩) := by
  unfold pointerChainStore
  rw [loadConsensusParamsInfo_save_other _ _ _ _ _ _ (by decide)]
  have h := loadConsensusParamsInfo_after_save (unaryCodec (ConsensusParamsInfo Nat)) DB.empty
    5 3 9 (unaryCodec_roundTrip _) unary_consensusParamsInfo_emptyOnlyFor (by decide)
  rw [if_neg (by decide)] at h
  exact h

theorem UInt8_eq_of_toNat_eq {a b : UInt8} (h : a.toNat = b.toNat) : a = b :=
  UInt8.ext h

theorem digitChar_injective_lt {a b : Nat} (ha : a < 16) (hb : b < 16)
    (h : Nat.digitChar a = Nat.digitChar b) : a = b := by
  have := congrArg hexDigitVal h
  rwa [hexDigitVal_digitChar a ha, hexDigitVal_digitChar b hb] at this

theorem fmtHexBytes_injective : ∀ {a b : Bytes}, fmtHexBytes a = fmtHexBytes b → a = b
  | [], [], _ => rfl
  | [], _ :: _, h => by simp [fmtHexBytes] at h
  | _ :: _, [], h => by simp [fmtHexBytes] at h
  | x :: xs, y :: ys, h => by
    simp only [fmtHexBytes, List.cons.injEq] at h
    obtain ⟨h1, h2, h3⟩ := h
    have hx : x.toNat < 256 := UInt8.toNat_lt x
    have hy : y.toNat < 256 := UInt8.toNat_lt y
    have e1 := digitChar_injective_lt (by omega) (by omega) h1
    have e2 := digitChar_injective_lt (Nat.mod_lt _ (by norm_num)) (Nat.mod_lt _ (by norm_num)) h2
    have hxy : x = y := UInt8_eq_of_toNat_eq (by omega)
    rw [hxy, fmtHexBytes_injective h3]

theorem CalcABCIResponsesKey_injective {a b : Int}
    (h : CalcABCIResponsesKey a = CalcABCIResponsesKey b) : a = b :=
  fmtHex_injective (List.append_cancel_left h)

theorem CalcTxResultKey_injective {a b : Bytes}
    (h : CalcTxResultKey a = CalcTxResultKey b) : a = b :=
  fmtHexBytes_injective (List.append_cancel_left h)

theorem nilListCodec_readsEmptyAsNil (T E B : Type) [Encodable T] [Encodable E] [Encodable B] :
    (nilListCodec T E B).ReadsEmptyAsNil := by
  intro r
  exact unaryCodec_roundTrip (ABCIResponses T E B) r.nilIfEmpty

theorem loadValidatorsInfo_congr {V : Type} (cdc : Codec (ValidatorsInfo V)) (db db2 : DB)
    (height : Int)
    (h : db2.Get (calcValidatorsKey height) = db.Get (calcValidatorsKey height)) :
    loadValidatorsInfo cdc db2 height = loadValidatorsInfo cdc db height := by
  simp [loadValidatorsInfo, h]

theorem resolveValidators_congr {V : Type} (cdc : Codec (ValidatorsInfo V)) (db db2 : DB)
    (h : ∀ height, db2.Get (calcValidatorsKey height) = db.Get (calcValidatorsKey height))
    (height : Int) :
    resolveValidators cdc db2 height = resolveValidators cdc db height := by
  have hl : ∀ k, loadValidatorsInfo cdc db2 k = loadValidatorsInfo cdc db k :=
    fun k => loadValidatorsInfo_congr cdc db db2 k (h k)
  simp only [resolveValidators, hl]

theorem LoadConsensusParams_congr {P : Type} [Inhabited P] [DecidableEq P]
    (cdc : Codec (ConsensusParamsInfo P)) (db db2 : DB)
    (h : ∀ height,
      db2.Get (calcConsensusParamsKey height) = db.Get (calcConsensusParamsKey height))
    (height : Int) :
    LoadConsensusParams cdc db2 height = LoadConsensusParams cdc db height := by
  have hl : ∀ k, loadConsensusParamsInfo cdc db2 k = loadConsensusParamsInfo cdc db k :=
    fun k => loadConsensusParamsInfo_congr cdc db db2 k (h k)
  simp only [LoadConsensusParams, hl]

theorem checkpointStore_resolve_100003 :
    resolveValidators (unaryCodec (ValidatorsInfo Nat)) checkpointStore 100003
      = .ok (5, some 3) := by
  have hl : lastStoredHeightFor 100003 1 = 100000 := by decide
  have := resolveValidators_at_checkpoint _ checkpointStore 100003 1 5 1
    checkpointStore_load_100003 (by rw [hl]; exact checkpointStore_load_100000)
  rw [this, hl]
  have hs : sub64 100003 100000 = 3 := by decide
  rw [hs]

theorem negativeChangeStore_load_max :
    loadValidatorsInfo (unaryCodec (ValidatorsInfo Nat)) negativeChangeStore 9223372036854775807
      = .ok (some ⟨none, -1⟩) := by
  apply loadValidatorsInfo_of_marshal _ _ _ _ (unaryCodec_roundTrip _)
    unary_validatorsInfo_emptyOnlyFor
  · simp [ValidatorsInfo.zero]
  · unfold negativeChangeStore
    rw [Get_saveValidatorsInfo_same _ _ _ _ _ (by decide), if_neg (by decide)]

theorem negativeChangeStore_load_checkpoint :
    loadValidatorsInfo (unaryCodec (ValidatorsInfo Nat)) negativeChangeStore 9223372036854700000
      = .ok none := by
  apply loadValidatorsInfo_of_empty
  unfold negativeChangeStore
  rw [Get_saveValidatorsInfo_other _ _ _ _ _ _
      (fun h => absurd (calcValidatorsKey_injective h) (by decide)),
    Get_saveValidatorsInfo_other _ _ _ _ _ _
      (fun h => absurd (calcValidatorsKey_injective h) (by decide))]
  rfl

theorem negativeChangeStore_load_change :
    loadValidatorsInfo (unaryCodec (ValidatorsInfo Nat)) negativeChangeStore (-1)
      = .ok (some ⟨some 0, -1⟩) := by
  apply loadValidatorsInfo_of_marshal _ _ _ _ (unaryCodec_roundTrip _)
    unary_validatorsInfo_emptyOnlyFor
  · simp [ValidatorsInfo.zero]
  · unfold negativeChangeStore
    rw [Get_saveValidatorsInfo_other _ _ _ _ _ _
        (fun h => absurd (calcValidatorsKey_injective h) (by decide)),
      Get_saveValidatorsInfo_same _ _ _ _ _ (by decide), if_pos (by decide)]

theorem LoadValidators_of_resolve_rotated {V : Type} (cdc : Codec (ValidatorsInfo V))
    (rot : V → V) (db : DB) (h : Int) (vs : V) (times : Int)
    (hr : resolveValidators cdc db h = .ok (vs, some times)) :
    LoadValidators cdc rot db h = .ok (IncrementProposerPriority rot vs times) := by
  unfold LoadValidators
  rw [hr]

theorem resavedCheckpointStore_load_100003 :
    loadValidatorsInfo (unaryCodec (ValidatorsInfo Nat))
      (saveValidatorsInfo (unaryCodec (ValidatorsInfo Nat)) checkpointStore 100000 1
        (some 50)).1 100003 = .ok (some ⟨none, 1⟩) := by
  rw [loadValidatorsInfo_congr (unaryCodec (ValidatorsInfo Nat)) checkpointStore
    (saveValidatorsInfo (unaryCodec (ValidatorsInfo Nat)) checkpointStore 100000 1 (some 50)).1
    100003
    (Get_saveValidatorsInfo_other (unaryCodec (ValidatorsInfo Nat)) checkpointStore 100000 1
      (some 50) (calcValidatorsKey 100003)
      (fun h => absurd (calcValidatorsKey_injective h) (by decide)))]
  exact checkpointStore_load_100003

theorem resavedCheckpointStore_load_100000 :
    loadValidatorsInfo (unaryCodec (ValidatorsInfo Nat))
      (saveValidatorsInfo (unaryCodec (ValidatorsInfo Nat)) checkpointStore 100000 1
        (some 50)).1 100000 = .ok (some ⟨some 50, 1⟩) := by
  apply loadValidatorsInfo_of_marshal _ _ _ _ (unaryCodec_roundTrip _)
    unary_validatorsInfo_emptyOnlyFor
  · simp [ValidatorsInfo.zero]
  · rw [Get_saveValidatorsInfo_same _ _ _ _ _ (by decide), if_pos (by decide)]

theorem resavedCheckpointStore_resolve_100003 :
    resolveValidators (unaryCodec (ValidatorsInfo Nat))
      (saveValidatorsInfo (unaryCodec (ValidatorsInfo Nat)) checkpointStore 100000 1
        (some 50)).1 100003 = .ok (50, some 3) := by
  have hl : lastStoredHeightFor 100003 1 = 100000 := by decide
  have hs : sub64 100003 100000 = 3 := by decide
  have h3 := resolveValidators_at_checkpoint _ _ 100003 1 50 1
    resavedCheckpointStore_load_100003 (by rw [hl]; exact resavedCheckpointStore_load_100000)
  rw [hl, hs] at h3
  exact h3

theorem IncrementProposerPriority_natCast {V : Type} (rot : V → V) (vs : V) (n : Nat) :
    IncrementProposerPriority rot vs (n : Int) = rot^[n] vs := by
  unfold IncrementProposerPriority
  rw [Int.toNat_natCast]

theorem IncrementProposerPriority_succ (v : Nat) (times : Int) :
    IncrementProposerPriority Nat.succ v times = v + times.toNat :=
  Nat.succ_iterate v times.toNat

theorem minHeightStore_resolve :
    resolveValidators (unaryCodec (ValidatorsInfo Nat)) minHeightStore (-9223372036854775808)
      = .ok (0, some 9223372036854775807) := by
  have hl : lastStoredHeightFor (-9223372036854775808) 1 = 1 := by decide
  have := resolveValidators_at_checkpoint _ minHeightStore (-9223372036854775808) 1 0 1
    minHeightStore_load_min (by rw [hl]; exact minHeightStore_load_1)
  rw [this, hl]
  have hs : sub64 (-9223372036854775808) 1 = 9223372036854775807 := by decide
  rw [hs]

theorem negativeChangeStore_resolve :
    resolveValidators (unaryCodec (ValidatorsInfo Nat)) negativeChangeStore 9223372036854775807
      = .ok (0, some (-9223372036854775808)) := by
  have hl : lastStoredHeightFor 9223372036854775807 (-1) = 9223372036854700000 := by decide
  have := resolveValidators_at_change _ negativeChangeStore 9223372036854775807 (-1) 0 (-1)
    negativeChangeStore_load_max
    (by rw [hl, negativeChangeStore_load_checkpoint]; rfl) negativeChangeStore_load_change
  rw [this]
  have hs : sub64 9223372036854775807 (-1) = -9223372036854775808 := by decide
  rw [hs]

theorem nilIfEmpty_of_ne {T E B : Type} (r : ABCIResponses T E B)
    (h : r.DeliverTxs ≠ some []) : r.nilIfEmpty = r := by
  obtain ⟨d, e, b⟩ := r
  match d, h with
  | none, _ => rfl
  | some (x :: xs), _ => rfl
  | some [], h => exact absurd rfl h

/-! ## The claims -/

/-- C1. Checkpoint reconstruction: for a change height `c >= 1`, a height
`h = c + n` in the int64 range and a set `S`, after `saveValidatorsInfo` has been
called once for every height `k` of `[c, h]` with change height `c`, the call at
`k` passing `S` advanced by `k - c` rotation steps, every call returns normally
and `LoadValidators(h)` returns `S` advanced by `h - c = n` rotation steps,
whatever multiples of 100000 lie in `[c, h]`. The codec is assumed to decode
what it encoded and to give the empty encoding to no record but the zero
record. -/
theorem checkpoint_reconstruction {V : Type} (cdc : Codec (ValidatorsInfo V)) (rot : V → V)
    (db : DB) (c : Int) (n : Nat) (S : V) (hc : 1 ≤ c) (hmax : c + (n : Int) < 2 ^ 63)
    (hrt : cdc.RoundTrip) (hne : cdc.EmptyOnlyFor (ValidatorsInfo.zero V)) :
    (saveValidatorsRange cdc rot db c S n).2 = .ok () ∧
    LoadValidators cdc rot (saveValidatorsRange cdc rot db c S n).1 (c + (n : Int))
      = .ok (rot^[n] S) := by
  obtain ⟨hok, hget⟩ := saveValidatorsRange_spec cdc rot db c S n
  refine ⟨hok, ?_⟩
  have hload : ∀ k : Nat, k ≤ n →
      loadValidatorsInfo cdc (saveValidatorsRange cdc rot db c S n).1 (c + (k : Int))
        = .ok (some (rangeRecord rot c S k)) := by
    intro k hk
    refine loadValidatorsInfo_of_marshal cdc _ _ _ hrt hne ?_ (hget k hk)
    intro hz
    have hl : (rangeRecord rot c S k).LastHeightChanged = c := by
      unfold rangeRecord
      split <;> rfl
    rw [hz] at hl
    simp [ValidatorsInfo.zero] at hl
    omega
  by_cases hcond : c + (n : Int) = c ∨ (c + (n : Int)).tmod 100000 = 0
  · have := hload n le_rfl
    simp only [rangeRecord, hcond, if_true] at this
    simp [LoadValidators, resolveValidators, this]
  · have hrec := hload n le_rfl
    simp only [rangeRecord, hcond, if_false] at hrec
    have hpos : (0 : Int) ≤ c + (n : Int) := by omega
    have hmod : (c + (n : Int)).tmod 100000 = (c + (n : Int)) % 100000 :=
      Int.tmod_eq_emod hpos (by norm_num)
    obtain ⟨k, hk, hr, hkc⟩ : ∃ k : Nat, k ≤ n ∧
        lastStoredHeightFor (c + (n : Int)) c = c + (k : Int) ∧
        (c + (k : Int) = c ∨ (c + (k : Int)).tmod 100000 = 0) := by
      rw [lastStoredHeightFor_eq, hmod]
      rcases max_cases ((c + (n : Int)) - (c + (n : Int)) % 100000) c with ⟨hm, hge⟩ | ⟨hm, _⟩
      · refine ⟨((c + (n : Int)) - (c + (n : Int)) % 100000 - c).toNat, by omega, by omega, ?_⟩
        right
        have hnn : (0 : Int) ≤ c + ((((c + (n : Int)) - (c + (n : Int)) % 100000 - c).toNat : Nat) : Int) := by
          omega
        rw [Int.tmod_eq_emod hnn (by norm_num)]
        omega
      · exact ⟨0, by omega, by simpa using hm, by simp⟩
    have hrk := hload k hk
    simp only [rangeRecord, hkc, if_true] at hrk
    rw [← hr] at hrk
    have hres := resolveValidators_at_checkpoint cdc _ (c + (n : Int)) c _ c hrec hrk
    have hsub : sub64 (c + (n : Int)) (lastStoredHeightFor (c + (n : Int)) c)
        = (n : Int) - (k : Int) := by
      rw [hr]
      have : c + (n : Int) - (c + (k : Int)) = (n : Int) - (k : Int) := by ring
      unfold sub64
      rw [this]
      exact wrapInt64_of_range _ (by omega) (by omega)
    rw [hsub] at hres
    simp [LoadValidators, hres, iterate_toNat_sub rot S n k hk]

/-- Witness of C1: change height 99998 and height 100002, so that the checkpoint
height 100000 lies in between. -/
theorem checkpoint_reconstruction_witness :
    (saveValidatorsRange (unaryCodec (ValidatorsInfo Nat)) Nat.succ DB.empty 99998 0 4).2
      = .ok () ∧
    LoadValidators (unaryCodec (ValidatorsInfo Nat)) Nat.succ
      (saveValidatorsRange (unaryCodec (ValidatorsInfo Nat)) Nat.succ DB.empty 99998 0 4).1
      (99998 + ((4 : Nat) : Int)) = .ok (Nat.succ^[4] 0) :=
  checkpoint_reconstruction (unaryCodec (ValidatorsInfo Nat)) Nat.succ DB.empty 99998 4 0
    (by decide) (by decide) (unaryCodec_roundTrip _) unary_validatorsInfo_emptyOnlyFor

/-- C2, as the code has it. Let the record at `h` exist without a set and carry
change height `c`, and let `r = max(h - h%100000, c)`. If the record at `r`
embeds `V0` and `h - r` is a number `n` of steps (it is not negative),
`LoadValidators(h)` returns `V0` advanced by exactly `n` steps. Otherwise (the
record at `r` is absent or has no set), if the record at `c` embeds `V1` and
`h - c` is a number `n` of steps that fits in an int64, it returns `V1` advanced
by exactly `n` steps. Otherwise (the record at `c` is absent or has no set) it
panics and returns nothing. -/
theorem loadValidators_pointer_record {V : Type} (cdc : Codec (ValidatorsInfo V)) (rot : V → V)
    (db : DB) (h c : Int) (hrec : loadValidatorsInfo cdc db h = .ok (some ⟨none, c⟩)) :
    (∀ (V0 : V) (c0 : Int) (n : Nat),
      loadValidatorsInfo cdc db (max (h - h.tmod 100000) c) = .ok (some ⟨some V0, c0⟩) →
      h - max (h - h.tmod 100000) c = (n : Int) →
      LoadValidators cdc rot db h = .ok (rot^[n] V0)) ∧
    (lacksSet (loadValidatorsInfo cdc db (max (h - h.tmod 100000) c)) = true →
      ∀ (V1 : V) (c1 : Int) (n : Nat),
        loadValidatorsInfo cdc db c = .ok (some ⟨some V1, c1⟩) →
        h - c = (n : Int) → (n : Int) < 2 ^ 63 →
        LoadValidators cdc rot db h = .ok (rot^[n] V1)) ∧
    (lacksSet (loadValidatorsInfo cdc db (max (h - h.tmod 100000) c)) = true →
      lacksSet (loadValidatorsInfo cdc db c) = true →
        LoadValidators cdc rot db h = .panic (.couldntFindValidators c h)) := by
  rw [← lastStoredHeightFor_eq]
  refine ⟨?_, ?_, ?_⟩
  · intro V0 c0 n hr hn
    have hlt : h.tmod 100000 < 100000 := Int.tmod_lt_of_pos h (by norm_num)
    have hge : h - h.tmod 100000 ≤ lastStoredHeightFor h c := by
      rw [lastStoredHeightFor_eq]
      exact le_max_left _ _
    have hsub : sub64 h (lastStoredHeightFor h c) = (n : Int) := by
      unfold sub64
      rw [hn]
      exact wrapInt64_of_range _ (by omega) (by omega)
    rw [LoadValidators_of_resolve_rotated cdc rot db h V0 _
      (resolveValidators_at_checkpoint cdc db h c V0 c0 hrec hr), hsub,
      IncrementProposerPriority_natCast]
  · intro hr V1 c1 n hc hn hn64
    have hsub : sub64 h c = (n : Int) := by
      unfold sub64
      rw [hn]
      exact wrapInt64_of_range _ (by omega) hn64
    rw [LoadValidators_of_resolve_rotated cdc rot db h V1 _
      (resolveValidators_at_change cdc db h c V1 c1 hrec hr hc), hsub,
      IncrementProposerPriority_natCast]
  · intro hr hc
    simp [LoadValidators, resolveValidators_unresolved cdc db h c hrec hr hc]

/-- Witness of C2: in the store of an old chain the record at 250000 is a
pointer to change height 1, the checkpoint record at 200000 is absent, and the
set found at the change height is advanced by 249999 steps. -/
theorem loadValidators_pointer_record_witness :
    loadValidatorsInfo (unaryCodec (ValidatorsInfo Nat)) oldChainStore 250000
      = .ok (some ⟨none, 1⟩) ∧
    LoadValidators (unaryCodec (ValidatorsInfo Nat)) Nat.succ oldChainStore 250000
      = .ok (Nat.succ^[249999] 0) :=
  ⟨oldChainStore_load_250000,
    (loadValidators_pointer_record _ Nat.succ oldChainStore 250000 1
      oldChainStore_load_250000).2.1
      (by
        have h : max ((250000 : Int) - (250000 : Int).tmod 100000) 1 = 200000 := by decide
        rw [h, oldChainStore_load_200000]
        rfl)
      0 1 249999 oldChainStore_load_1 (by decide) (by decide)⟩

/-- C2 fails as stated, twice. In the store whose record at the least int64
height points to change height 1, `r` is 1, the record at `r` embeds the set 0
and `h - r` is -9223372036854775809, not a number of steps; the int64
difference wraps and `LoadValidators` returns the set advanced by
9223372036854775807 steps. In the store built by
`saveValidatorsInfo(db, -1, -1, S)` and
`saveValidatorsInfo(db, 9223372036854775807, -1, S')` the record at `r` is absent,
the record at `c = -1` embeds the set 0 and `h - c` is 9223372036854775808; the
int64 difference passed to `IncrementProposerPriority` is -9223372036854775808
and the set is returned as it is, not advanced by 9223372036854775808 steps. -/
theorem loadValidators_steps_not_difference :
    (loadValidatorsInfo (unaryCodec (ValidatorsInfo Nat)) minHeightStore (-9223372036854775808)
        = .ok (some ⟨none, 1⟩) ∧
      max ((-9223372036854775808 : Int) - (-9223372036854775808 : Int).tmod 100000) 1 = 1 ∧
      loadValidatorsInfo (unaryCodec (ValidatorsInfo Nat)) minHeightStore 1
        = .ok (some ⟨some 0, 1⟩) ∧
      (-9223372036854775808 : Int) - 1 = -9223372036854775809 ∧
      LoadValidators (unaryCodec (ValidatorsInfo Nat)) Nat.succ minHeightStore
        (-9223372036854775808) = .ok 9223372036854775807) ∧
    (loadValidatorsInfo (unaryCodec (ValidatorsInfo Nat)) negativeChangeStore
        9223372036854775807 = .ok (some ⟨none, -1⟩) ∧
      lacksSet (loadValidatorsInfo (unaryCodec (ValidatorsInfo Nat)) negativeChangeStore
        (max ((9223372036854775807 : Int) - (9223372036854775807 : Int).tmod 100000) (-1)))
        = true ∧
      loadValidatorsInfo (unaryCodec (ValidatorsInfo Nat)) negativeChangeStore (-1)
        = .ok (some ⟨some 0, -1⟩) ∧
      (9223372036854775807 : Int) - (-1) = 9223372036854775808 ∧
      resolveValidators (unaryCodec (ValidatorsInfo Nat)) negativeChangeStore
        9223372036854775807 = .ok (0, some (-9223372036854775808)) ∧
      LoadValidators (unaryCodec (ValidatorsInfo Nat)) Nat.succ negativeChangeStore
        9223372036854775807 = .ok 0 ∧
      Nat.succ^[9223372036854775808] 0 ≠ 0) := by
  refine ⟨⟨minHeightStore_load_min, by decide, minHeightStore_load_1, by decide, ?_⟩,
    negativeChangeStore_load_max, ?_, negativeChangeStore_load_change, by decide,
    negativeChangeStore_resolve, ?_, ?_⟩
  · rw [LoadValidators_of_resolve_rotated _ Nat.succ _ _ _ _ minHeightStore_resolve,
      IncrementProposerPriority_succ]
    exact congrArg Outcome.ok (by decide)
  · have hm : max ((9223372036854775807 : Int) - (9223372036854775807 : Int).tmod 100000) (-1)
        = 9223372036854700000 := by decide
    rw [hm, negativeChangeStore_load_checkpoint]
    rfl
  · rw [LoadValidators_of_resolve_rotated _ Nat.succ _ _ _ _ negativeChangeStore_resolve,
      IncrementProposerPriority_succ]
    exact congrArg Outcome.ok (by decide)
  · rw [Nat.succ_iterate]
    decide

/-- C3. After `saveValidatorsInfo(db, height, lastHeightChanged, S)` with
`lastHeightChanged <= height`, the value under the validator key of `height` is
the encoding of a record whose `LastHeightChanged` is `lastHeightChanged` and
which embeds `S` exactly when `height == lastHeightChanged` or
`height % 100000 == 0`, and carries no set otherwise. -/
theorem saveValidatorsInfo_stores_record {V : Type} (cdc : Codec (ValidatorsInfo V)) (db : DB)
    (height lastHeightChanged : Int) (S : V) (hle : lastHeightChanged ≤ height) :
    ∃ rec : ValidatorsInfo V,
      (saveValidatorsInfo cdc db height lastHeightChanged (some S)).2 = .ok () ∧
      (saveValidatorsInfo cdc db height lastHeightChanged (some S)).1.Get
          (calcValidatorsKey height) = some (cdc.marshal rec) ∧
      rec.LastHeightChanged = lastHeightChanged ∧
      (rec.ValidatorSet = some S ↔ (height = lastHeightChanged ∨ height.tmod 100000 = 0)) ∧
      (rec.ValidatorSet = none ↔ ¬ (height = lastHeightChanged ∨ height.tmod 100000 = 0)) := by
  rw [saveValidatorsInfo_of_le cdc db height lastHeightChanged (some S) hle]
  by_cases hc : height = lastHeightChanged ∨ height.tmod 100000 = 0
  · exact ⟨⟨some S, lastHeightChanged⟩, rfl, by simp [DB.Get_Set, hc], rfl, by simp [hc],
      by simp [hc]⟩
  · exact ⟨⟨none, lastHeightChanged⟩, rfl, by simp [DB.Get_Set, hc], rfl, by simp [hc],
      by simp [hc]⟩

/-- Witness of C3: a pointer record at height 7 with change height 5. -/
theorem saveValidatorsInfo_stores_record_witness :
    (5 : Int) ≤ 7 ∧
    ∃ rec : ValidatorsInfo Nat,
      (saveValidatorsInfo (unaryCodec (ValidatorsInfo Nat)) DB.empty 7 5 (some 3)).2 = .ok () ∧
      (saveValidatorsInfo (unaryCodec (ValidatorsInfo Nat)) DB.empty 7 5 (some 3)).1.Get
          (calcValidatorsKey 7) = some ((unaryCodec (ValidatorsInfo Nat)).marshal rec) ∧
      rec.LastHeightChanged = 5 ∧
      (rec.ValidatorSet = some 3 ↔ ((7 : Int) = 5 ∨ (7 : Int).tmod 100000 = 0)) ∧
      (rec.ValidatorSet = none ↔ ¬ ((7 : Int) = 5 ∨ (7 : Int).tmod 100000 = 0)) :=
  ⟨by decide, saveValidatorsInfo_stores_record _ DB.empty 7 5 3 (by decide)⟩

/-- C4. When `h == c` or `h % 100000 == 0`, with `c <= h`,
`saveValidatorsInfo(db, h, c, S)` followed by `LoadValidators(db, h)` returns `S`
itself with a nil error, and no call of `IncrementProposerPriority` is made. The
codec is assumed to decode what it encoded and to give the empty encoding to no
record but the zero record. -/
theorem load_after_save_embedded {V : Type} (cdc : Codec (ValidatorsInfo V)) (rot : V → V)
    (db : DB) (h c : Int) (S : V) (hle : c ≤ h) (hcond : h = c ∨ h.tmod 100000 = 0)
    (hrt : cdc.RoundTrip) (hne : cdc.EmptyOnlyFor (ValidatorsInfo.zero V)) :
    (saveValidatorsInfo cdc db h c (some S)).2 = .ok () ∧
    LoadValidators cdc rot (saveValidatorsInfo cdc db h c (some S)).1 h = .ok S ∧
    resolveValidators cdc (saveValidatorsInfo cdc db h c (some S)).1 h = .ok (S, none) := by
  rw [saveValidatorsInfo_of_le cdc db h c (some S) hle]
  have hload : loadValidatorsInfo cdc
      (db.Set (calcValidatorsKey h) (cdc.marshal ⟨some S, c⟩)) h = .ok (some ⟨some S, c⟩) :=
    loadValidatorsInfo_of_marshal cdc _ h ⟨some S, c⟩ hrt hne
      (by simp [ValidatorsInfo.zero]) (by simp [DB.Get_Set])
  simp [hcond, LoadValidators, resolveValidators, hload]

/-- Witness of C4: height and change height both 100000. -/
theorem load_after_save_embedded_witness :
    (saveValidatorsInfo (unaryCodec (ValidatorsInfo Nat)) DB.empty 100000 100000 (some 7)).2
      = .ok () ∧
    LoadValidators (unaryCodec (ValidatorsInfo Nat)) Nat.succ
      (saveValidatorsInfo (unaryCodec (ValidatorsInfo Nat)) DB.empty 100000 100000 (some 7)).1
      100000 = .ok 7 ∧
    resolveValidators (unaryCodec (ValidatorsInfo Nat))
      (saveValidatorsInfo (unaryCodec (ValidatorsInfo Nat)) DB.empty 100000 100000 (some 7)).1
      100000 = .ok (7, none) :=
  load_after_save_embedded (unaryCodec (ValidatorsInfo Nat)) Nat.succ DB.empty 100000 100000 7
    (by decide) (by decide) (unaryCodec_roundTrip _)
    (unaryCodec_emptyOnlyFor _ _ encode_validatorsInfo_zero)

/-- C5, as the code has it: `LoadValidators` returns `NoValSetForHeightError` for
the height exactly when the value under the validator key of that height has
length zero, that is when the key is absent or holds the empty byte string. -/
theorem loadValidators_noValSet_iff {V : Type} (cdc : Codec (ValidatorsInfo V)) (rot : V → V)
    (db : DB) (height : Int) :
    LoadValidators cdc rot db height = .err (.NoValSetForHeightError height) ↔
      (db.Get (calcValidatorsKey height) = none ∨ db.Get (calcValidatorsKey height) = some []) := by
  constructor
  · intro h
    by_contra hcon
    push_neg at hcon
    have hlen : bufLen (db.Get (calcValidatorsKey height)) ≠ 0 := by
      cases hg : db.Get (calcValidatorsKey height) with
      | none => exact absurd hg hcon.1
      | some b =>
        intro h0
        exact hcon.2 (by rw [hg, List.length_eq_zero.mp h0])
    cases hr : resolveValidators cdc db height with
    | err e => exact hlen (resolveValidators_err cdc db height e hr)
    | exit => simp [LoadValidators, hr] at h
    | panic p => simp [LoadValidators, hr] at h
    | ok a =>
      obtain ⟨vs, t⟩ := a
      cases t <;> simp [LoadValidators, hr] at h
  · intro h
    have hlen : bufLen (db.Get (calcValidatorsKey height)) = 0 := by
      rcases h with h | h <;> rw [h] <;> rfl
    simp [LoadValidators, resolveValidators, loadValidatorsInfo, hlen]

/-- C5 fails as stated: a store holding the empty byte string under the
validator key of height 5 holds a value there, and `LoadValidators` returns
`NoValSetForHeightError` for height 5. Such a store is what
`saveValidatorsInfo(db, 5, 0, S)` leaves when the codec, as amino does, encodes
the zero record as the empty string. -/
theorem loadValidators_noValSet_stored_empty :
    ((DB.empty.Set (calcValidatorsKey 5) []).Get (calcValidatorsKey 5) = some [] ∧
      LoadValidators (unaryCodec (ValidatorsInfo Nat)) Nat.succ
        (DB.empty.Set (calcValidatorsKey 5) []) 5 = .err (.NoValSetForHeightError 5)) ∧
    ((saveValidatorsInfo (unaryCodec (ValidatorsInfo Nat)) DB.empty 5 0 (some 7)).1.Get
        (calcValidatorsKey 5) = some [] ∧
      LoadValidators (unaryCodec (ValidatorsInfo Nat)) Nat.succ
        (saveValidatorsInfo (unaryCodec (ValidatorsInfo Nat)) DB.empty 5 0 (some 7)).1 5
        = .err (.NoValSetForHeightError 5)) := by
  have hz : (unaryCodec (ValidatorsInfo Nat)).marshal ⟨none, 0⟩ = [] := by
    have := encode_validatorsInfo_zero
    unfold ValidatorsInfo.zero at this
    simp only [unaryCodec, this, List.replicate_zero]
  have hg : (saveValidatorsInfo (unaryCodec (ValidatorsInfo Nat)) DB.empty 5 0 (some 7)).1.Get
      (calcValidatorsKey 5) = some [] := by
    rw [Get_saveValidatorsInfo_same _ _ _ _ _ (by decide), if_neg (by decide), hz]
  refine ⟨⟨by simp [DB.Get_Set], ?_⟩, hg, ?_⟩
  · simp [LoadValidators, resolveValidators, loadValidatorsInfo, DB.Get_Set, bufLen]
  · have hl := loadValidatorsInfo_of_empty (unaryCodec (ValidatorsInfo Nat))
      (saveValidatorsInfo (unaryCodec (ValidatorsInfo Nat)) DB.empty 5 0 (some 7)).1 5
      (by rw [hg]; rfl)
    simp [LoadValidators, resolveValidators, hl]

/-- C6. `saveValidatorsInfo` panics exactly when `lastHeightChanged > height`,
returns normally exactly when `lastHeightChanged <= height`, and when it panics
the store, its write record included, is the store it was given. -/
theorem saveValidatorsInfo_panics_iff {V : Type} (cdc : Codec (ValidatorsInfo V)) (db : DB)
    (height lastHeightChanged : Int) (valSet : Option V) :
    ((saveValidatorsInfo cdc db height lastHeightChanged valSet).2
        = .panic .lastHeightChangedGreater ↔ lastHeightChanged > height) ∧
    ((saveValidatorsInfo cdc db height lastHeightChanged valSet).2 = .ok ()
        ↔ lastHeightChanged ≤ height) ∧
    ((saveValidatorsInfo cdc db height lastHeightChanged valSet).2 ≠ .ok () →
      (saveValidatorsInfo cdc db height lastHeightChanged valSet).1 = db) := by
  by_cases h : lastHeightChanged > height
  · simp [saveValidatorsInfo, h]
  · have hle : lastHeightChanged ≤ height := by omega
    simp [saveValidatorsInfo, h, hle]

/-- C7, as the code has it: for a height `h` whose record is a pointer with change
height `c`, when the set is found at the checkpoint candidate
`r = lastStoredHeightFor(h, c)` and the int64 subtraction `h - r` does not
overflow (it cannot for `0 <= h`), the argument of `IncrementProposerPriority` is
`h - r` and is below 100000. (On the fallback to the change height the argument
is `h - c`, which no interval bounds.) -/
theorem rotation_steps_lt_interval {V : Type} (cdc : Codec (ValidatorsInfo V)) (rot : V → V)
    (db : DB) (h c : Int) (V0 : V) (c0 : Int)
    (hrec : loadValidatorsInfo cdc db h = .ok (some ⟨none, c⟩))
    (hr : loadValidatorsInfo cdc db (lastStoredHeightFor h c) = .ok (some ⟨some V0, c0⟩))
    (hnov : -2 ^ 63 ≤ h - lastStoredHeightFor h c) :
    resolveValidators cdc db h = .ok (V0, some (h - lastStoredHeightFor h c)) ∧
    LoadValidators cdc rot db h
      = .ok (IncrementProposerPriority rot V0 (h - lastStoredHeightFor h c)) ∧
    h - lastStoredHeightFor h c < 100000 := by
  have hlt : h.tmod 100000 < 100000 := Int.tmod_lt_of_pos h (by norm_num)
  have hbound : h - lastStoredHeightFor h c < 100000 := by
    rw [lastStoredHeightFor_eq]
    have := le_max_left (h - h.tmod 100000) c
    omega
  have hsub : sub64 h (lastStoredHeightFor h c) = h - lastStoredHeightFor h c :=
    wrapInt64_of_range _ hnov (by omega)
  have hres := resolveValidators_at_checkpoint cdc db h c V0 c0 hrec hr
  rw [hsub] at hres
  exact ⟨hres, by simp [LoadValidators, hres], hbound⟩

/-- Witness of C7: the pointer record at height 100003 resolves at the
checkpoint 100000, three steps below. -/
theorem rotation_steps_lt_interval_witness :
    resolveValidators (unaryCodec (ValidatorsInfo Nat)) checkpointStore 100003
      = .ok (5, some (100003 - lastStoredHeightFor 100003 1)) ∧
    LoadValidators (unaryCodec (ValidatorsInfo Nat)) Nat.succ checkpointStore 100003
      = .ok (IncrementProposerPriority Nat.succ 5 (100003 - lastStoredHeightFor 100003 1)) ∧
    (100003 : Int) - lastStoredHeightFor 100003 1 < 100000 :=
  rotation_steps_lt_interval (unaryCodec (ValidatorsInfo Nat)) Nat.succ checkpointStore
    100003 1 5 1 checkpointStore_load_100003
    (by
      have hl : lastStoredHeightFor 100003 1 = 100000 := by decide
      rw [hl]
      exact checkpointStore_load_100000)
    (sub_lastStoredHeightFor_ge 100003 1 (by decide) (by decide))

/-- C7 fails as stated, twice. In the store of an old chain `LoadValidators(250000)`
finds no record at the checkpoint 200000, falls back to change height 1 and
rotates 249999 times. In a store whose record at the least int64 height points
to change height 1, the int64 difference wraps to 9223372036854775807. -/
theorem rotation_steps_exceed_interval :
    (resolveValidators (unaryCodec (ValidatorsInfo Nat)) oldChainStore 250000
        = .ok (0, some 249999) ∧
      LoadValidators (unaryCodec (ValidatorsInfo Nat)) Nat.succ oldChainStore 250000
        = .ok 249999 ∧
      ¬ ((249999 : Int) < 100000)) ∧
    (resolveValidators (unaryCodec (ValidatorsInfo Nat)) minHeightStore (-9223372036854775808)
        = .ok (0, some 9223372036854775807) ∧
      ¬ ((9223372036854775807 : Int) < 100000)) := by
  have h1 : resolveValidators (unaryCodec (ValidatorsInfo Nat)) oldChainStore 250000
      = .ok (0, some 249999) := by
    have hl : lastStoredHeightFor 250000 1 = 200000 := by decide
    have := resolveValidators_at_change _ oldChainStore 250000 1 0 1 oldChainStore_load_250000
      (by rw [hl, oldChainStore_load_200000]; rfl) oldChainStore_load_1
    rw [this]
    have hs : sub64 250000 1 = 249999 := by decide
    rw [hs]
  have h2 : resolveValidators (unaryCodec (ValidatorsInfo Nat)) minHeightStore
      (-9223372036854775808) = .ok (0, some 9223372036854775807) := by
    have hl : lastStoredHeightFor (-9223372036854775808) 1 = 1 := by decide
    have := resolveValidators_at_checkpoint _ minHeightStore (-9223372036854775808) 1 0 1
      minHeightStore_load_min (by rw [hl]; exact minHeightStore_load_1)
    rw [this, hl]
    have hs : sub64 (-9223372036854775808) 1 = 9223372036854775807 := by decide
    rw [hs]
  refine ⟨⟨h1, ?_, by decide⟩, h2, by decide⟩
  simp [LoadValidators, h1, IncrementProposerPriority, Nat.succ_iterate]

/-- C8, as the code has it: for a State with
`LastHeightValidatorsChanged <= LastBlockHeight + 1` whose `LastBlockHeight` is an
int64 with `LastBlockHeight + 2` still in the int64 range, `SaveState` returns
normally and a following `LoadState` returns the state saved. The codec is
assumed to decode what it encoded and to give the empty encoding to no state
but the zero state. -/
theorem saveState_loadState_roundTrip {V P : Type} [Inhabited P] (stateKey : Key)
    (vc : Codec (ValidatorsInfo V)) (pc : Codec (ConsensusParamsInfo P)) (sc : Codec (State V P))
    (db : DB) (state : State V P)
    (hinv : state.LastHeightValidatorsChanged ≤ state.LastBlockHeight + 1)
    (hlo : -2 ^ 63 ≤ state.LastBlockHeight) (hhi : state.LastBlockHeight + 2 < 2 ^ 63)
    (hrt : sc.RoundTrip) (hne : sc.EmptyOnlyFor (State.zero V P)) :
    (SaveState stateKey vc pc sc db state).2 = .ok () ∧
    LoadState stateKey sc (SaveState stateKey vc pc sc db state).1 = .ok state := by
  have hn1 : add64 state.LastBlockHeight 1 = state.LastBlockHeight + 1 :=
    wrapInt64_of_range _ (by omega) (by omega)
  have hn2 : add64 (add64 state.LastBlockHeight 1) 1 = state.LastBlockHeight + 2 := by
    rw [hn1]
    have : state.LastBlockHeight + 1 + 1 = state.LastBlockHeight + 2 := by ring
    unfold add64
    rw [this]
    exact wrapInt64_of_range _ (by omega) (by omega)
  have hle : state.LastHeightValidatorsChanged ≤ add64 (add64 state.LastBlockHeight 1) 1 := by
    rw [hn2]
    omega
  unfold SaveState LoadState
  rw [saveState_of_ok vc pc sc db state stateKey hle]
  refine ⟨rfl, ?_⟩
  unfold loadState
  simp only [DB.Get_SetSync, if_true]
  by_cases he : sc.marshal state = []
  · have hz := hne state he
    rw [he]
    simp only [bufLen, List.length_nil, if_true]
    rw [hz]
  · have hlen : bufLen (some (sc.marshal state)) ≠ 0 := by
      simpa [bufLen] using he
    simp [hlen, hrt state]

/-- Witness of C8: the state after block 4. -/
theorem saveState_loadState_roundTrip_witness :
    (SaveState sampleStateKey (unaryCodec (ValidatorsInfo Nat))
      (unaryCodec (ConsensusParamsInfo Nat)) (unaryCodec (State Nat Nat)) DB.empty
      sampleState).2 = .ok () ∧
    LoadState sampleStateKey (unaryCodec (State Nat Nat))
      (SaveState sampleStateKey (unaryCodec (ValidatorsInfo Nat))
        (unaryCodec (ConsensusParamsInfo Nat)) (unaryCodec (State Nat Nat)) DB.empty
        sampleState).1 = .ok sampleState :=
  saveState_loadState_roundTrip sampleStateKey _ _ _ DB.empty sampleState
    (by decide) (by decide) (by decide) (unaryCodec_roundTrip _)
    (unaryCodec_emptyOnlyFor _ _ encode_state_zero)

/-- C8 fails as stated: the state with `LastBlockHeight = 2^63 - 2` and
`LastHeightValidatorsChanged = 0` satisfies
`LastHeightValidatorsChanged <= LastBlockHeight + 1`, and `SaveState` panics on it,
because `nextHeight + 1` wraps to the least int64. -/
theorem saveState_panics_near_max_height :
    overflowState.LastHeightValidatorsChanged ≤ overflowState.LastBlockHeight + 1 ∧
    overflowState.LastHeightValidatorsChanged ≤ add64 overflowState.LastBlockHeight 1 ∧
    add64 (add64 overflowState.LastBlockHeight 1) 1 = -9223372036854775808 ∧
    (SaveState sampleStateKey (unaryCodec (ValidatorsInfo Nat))
      (unaryCodec (ConsensusParamsInfo Nat)) (unaryCodec (State Nat Nat)) DB.empty
      overflowState).2 = .panic .lastHeightChangedGreater := by
  refine ⟨by decide, by decide, by decide, ?_⟩
  have h1 : add64 overflowState.LastBlockHeight 1 = 9223372036854775807 := by decide
  have h2 : add64 9223372036854775807 1 = -9223372036854775808 := by decide
  have h3 : overflowState.LastHeightValidatorsChanged = 0 := rfl
  simp [SaveState, saveState, h1, h2, h3, saveValidatorsInfo]

/-- C9. When `saveState` returns normally, with `nextHeight = LastBlockHeight + 1`
(int64), the calls it made on the backend are, in order: only when
`nextHeight == 1` the validator record at height 1; the validator record at
`nextHeight + 1` built from `NextValidators` and `LastHeightValidatorsChanged`; the
consensus-params record at `nextHeight` built from `ConsensusParams` and
`LastHeightConsensusParamsChanged`; and last the snapshot under the state key,
with `SetSync`. Every key other than these keeps its value, and each of these
keys holds the value written to it (for the per-height records, when the state
key is a different key). -/
theorem saveState_writes {V P : Type} [Inhabited P] (vc : Codec (ValidatorsInfo V))
    (pc : Codec (ConsensusParamsInfo P)) (sc : Codec (State V P)) (db : DB) (state : State V P)
    (key : Key) (hok : (saveState vc pc sc db state key).2 = .ok ()) :
    (saveState vc pc sc db state key).1.writes =
      db.writes ++
        (if add64 state.LastBlockHeight 1 = 1 then
          [⟨calcValidatorsKey 1, vc.marshal ⟨state.Validators, 1⟩, false⟩] else []) ++
        [⟨calcValidatorsKey (add64 (add64 state.LastBlockHeight 1) 1),
            vc.marshal
              (if add64 (add64 state.LastBlockHeight 1) 1 = state.LastHeightValidatorsChanged ∨
                  (add64 (add64 state.LastBlockHeight 1) 1).tmod 100000 = 0 then
                ⟨state.NextValidators, state.LastHeightValidatorsChanged⟩
              else ⟨none, state.LastHeightValidatorsChanged⟩), false⟩,
          ⟨calcConsensusParamsKey (add64 state.LastBlockHeight 1),
            pc.marshal
              (if state.LastHeightConsensusParamsChanged = add64 state.LastBlockHeight 1 then
                ⟨state.ConsensusParams, state.LastHeightConsensusParamsChanged⟩
              else ⟨default, state.LastHeightConsensusParamsChanged⟩), false⟩,
          ⟨key, sc.marshal state, true⟩] ∧
    (∀ k : Key, k ≠ key → k ≠ calcConsensusParamsKey (add64 state.LastBlockHeight 1) →
      k ≠ calcValidatorsKey (add64 (add64 state.LastBlockHeight 1) 1) →
      (add64 state.LastBlockHeight 1 = 1 → k ≠ calcValidatorsKey 1) →
      (saveState vc pc sc db state key).1.Get k = db.Get k) ∧
    (saveState vc pc sc db state key).1.Get key = some (sc.marshal state) ∧
    (key ≠ calcConsensusParamsKey (add64 state.LastBlockHeight 1) →
      (saveState vc pc sc db state key).1.Get
          (calcConsensusParamsKey (add64 state.LastBlockHeight 1)) =
        some (pc.marshal
          (if state.LastHeightConsensusParamsChanged = add64 state.LastBlockHeight 1 then
            ⟨state.ConsensusParams, state.LastHeightConsensusParamsChanged⟩
          else ⟨default, state.LastHeightConsensusParamsChanged⟩))) ∧
    (key ≠ calcValidatorsKey (add64 (add64 state.LastBlockHeight 1) 1) →
      (saveState vc pc sc db state key).1.Get
          (calcValidatorsKey (add64 (add64 state.LastBlockHeight 1) 1)) =
        some (vc.marshal
          (if add64 (add64 state.LastBlockHeight 1) 1 = state.LastHeightValidatorsChanged ∨
              (add64 (add64 state.LastBlockHeight 1) 1).tmod 100000 = 0 then
            ⟨state.NextValidators, state.LastHeightValidatorsChanged⟩
          else ⟨none, state.LastHeightValidatorsChanged⟩))) ∧
    (add64 state.LastBlockHeight 1 = 1 → key ≠ calcValidatorsKey 1 →
      (saveState vc pc sc db state key).1.Get (calcValidatorsKey 1) =
        some (vc.marshal ⟨state.Validators, 1⟩)) := by
  have hle := saveState_ok_le vc pc sc db state key hok
  rw [saveState_of_ok vc pc sc db state key hle]
  have hvc : ∀ a b : Int, calcConsensusParamsKey a ≠ calcValidatorsKey b :=
    fun a b h => calcValidatorsKey_ne_calcConsensusParamsKey b a h.symm
  refine ⟨?_, ?_, ?_, ?_, ?_, ?_⟩
  · by_cases h1 : add64 state.LastBlockHeight 1 = 1 <;>
      simp [DB.SetSync, DB.Set, h1]
  · intro k hk1 hk2 hk3 hk4
    by_cases h1 : add64 state.LastBlockHeight 1 = 1
    · have hk5 := hk4 h1
      rw [h1] at hk2 hk3
      simp only [DB.Get_SetSync, DB.Get_Set, hk1, hk2, hk3, hk5, h1, if_true, if_false]
    · simp only [DB.Get_SetSync, DB.Get_Set, hk1, hk2, hk3, h1, if_false]
  · simp only [DB.Get_SetSync, if_true]
  · intro hk
    simp only [DB.Get_SetSync, DB.Get_Set, hk.symm, if_true, if_false]
  · intro hk
    simp only [DB.Get_SetSync, DB.Get_Set, hk.symm, hvc, calcValidatorsKey_ne_calcConsensusParamsKey,
      if_true, if_false]
  · intro h1 hk
    have h2 : add64 (1 : Int) 1 = 2 := by decide
    have h12 : calcValidatorsKey 1 ≠ calcValidatorsKey 2 := by decide
    simp only [h1, h2, DB.Get_SetSync, DB.Get_Set, hk.symm, h12,
      calcValidatorsKey_ne_calcConsensusParamsKey, if_true, if_false]

/-- Witness of C9: the state before the first block, saved into the empty
store; the four calls on the backend are the ones listed. -/
theorem saveState_writes_witness :
    (saveState (unaryCodec (ValidatorsInfo Nat)) (unaryCodec (ConsensusParamsInfo Nat))
      (unaryCodec (State Nat Nat)) DB.empty genesisState sampleStateKey).2 = .ok () ∧
    (saveState (unaryCodec (ValidatorsInfo Nat)) (unaryCodec (ConsensusParamsInfo Nat))
      (unaryCodec (State Nat Nat)) DB.empty genesisState sampleStateKey).1.writes =
      DB.empty.writes ++
        (if add64 genesisState.LastBlockHeight 1 = 1 then
          [⟨calcValidatorsKey 1,
            (unaryCodec (ValidatorsInfo Nat)).marshal ⟨genesisState.Validators, 1⟩, false⟩]
          else []) ++
        [⟨calcValidatorsKey (add64 (add64 genesisState.LastBlockHeight 1) 1),
            (unaryCodec (ValidatorsInfo Nat)).marshal
              (if add64 (add64 genesisState.LastBlockHeight 1) 1
                    = genesisState.LastHeightValidatorsChanged ∨
                  (add64 (add64 genesisState.LastBlockHeight 1) 1).tmod 100000 = 0 then
                ⟨genesisState.NextValidators, genesisState.LastHeightValidatorsChanged⟩
              else ⟨none, genesisState.LastHeightValidatorsChanged⟩), false⟩,
          ⟨calcConsensusParamsKey (add64 genesisState.LastBlockHeight 1),
            (unaryCodec (ConsensusParamsInfo Nat)).marshal
              (if genesisState.LastHeightConsensusParamsChanged
                  = add64 genesisState.LastBlockHeight 1 then
                ⟨genesisState.ConsensusParams, genesisState.LastHeightConsensusParamsChanged⟩
              else ⟨default, genesisState.LastHeightConsensusParamsChanged⟩), false⟩,
          ⟨sampleStateKey, (unaryCodec (State Nat Nat)).marshal genesisState, true⟩] :=
  ⟨genesisState_save_ok,
    (saveState_writes _ _ _ DB.empty genesisState sampleStateKey genesisState_save_ok).1⟩

/-- C10. Height-1 boundary: for a State with `LastBlockHeight = 0`, when
`saveState` ends (normally, or by the panic of its second call of
`saveValidatorsInfo`) the value under the validator key of height 1 is the
encoding of the record that embeds `state.Validators` with
`LastHeightChanged = 1`, whatever `state.LastHeightValidatorsChanged` is. The
state key is assumed not to be the validator key of height 1. -/
theorem saveState_seeds_height_one {V P : Type} [Inhabited P] (vc : Codec (ValidatorsInfo V))
    (pc : Codec (ConsensusParamsInfo P)) (sc : Codec (State V P)) (db : DB) (state : State V P)
    (key : Key) (h0 : state.LastBlockHeight = 0) (hkey : key ≠ calcValidatorsKey 1) :
    (saveState vc pc sc db state key).1.Get (calcValidatorsKey 1) =
      some (vc.marshal ⟨state.Validators, 1⟩) := by
  have hn1 : add64 state.LastBlockHeight 1 = 1 := by rw [h0]; decide
  have hn2 : add64 (1 : Int) 1 = 2 := by decide
  have h12 : calcValidatorsKey 1 ≠ calcValidatorsKey 2 := by decide
  by_cases hle : state.LastHeightValidatorsChanged ≤ add64 (add64 state.LastBlockHeight 1) 1
  · rw [saveState_of_ok vc pc sc db state key hle]
    simp only [hn1, hn2, DB.Get_SetSync, DB.Get_Set, hkey.symm, h12,
      calcValidatorsKey_ne_calcConsensusParamsKey, if_true, if_false]
  · have hgt : state.LastHeightValidatorsChanged > 2 := by
      rw [hn1, hn2] at hle
      omega
    unfold saveState
    simp only [hn1, hn2, if_true]
    rw [saveValidatorsInfo_of_le vc db 1 1 state.Validators (le_refl 1)]
    simp [saveValidatorsInfo, hgt, DB.Get_Set]

/-- Witness of C10: the state before the first block, whose
`LastHeightValidatorsChanged` is 2. -/
theorem saveState_seeds_height_one_witness :
    genesisState.LastBlockHeight = 0 ∧ sampleStateKey ≠ calcValidatorsKey 1 ∧
    (saveState (unaryCodec (ValidatorsInfo Nat)) (unaryCodec (ConsensusParamsInfo Nat))
      (unaryCodec (State Nat Nat)) DB.empty genesisState sampleStateKey).1.Get
        (calcValidatorsKey 1) =
      some ((unaryCodec (ValidatorsInfo Nat)).marshal ⟨genesisState.Validators, 1⟩) :=
  ⟨rfl, by decide,
    saveState_seeds_height_one _ _ _ DB.empty genesisState sampleStateKey rfl (by decide)⟩

/-- C11. Idempotent startup: when a call of `LoadStateFromDBOrGenesisDoc` returns
a state with a nil error, a second call on the store the first call left
returns the same state and leaves the store, its write record included, as it
is: it makes no call of `Set` or `SetSync`. The codec is assumed to decode what
it encoded and to give the empty encoding to no state but the zero state, and
a state built by `MakeGenesisState` is assumed not to be empty. -/
theorem loadStateFromDBOrGenesisDoc_idempotent {V P G : Type} [Inhabited P] (stateKey : Key)
    (vc : Codec (ValidatorsInfo V)) (pc : Codec (ConsensusParamsInfo P))
    (sc : Codec (State V P)) (IsEmpty : State V P → Bool)
    (MakeGenesisState : G → Option (State V P)) (db db1 : DB) (genesisDoc : G)
    (state1 : State V P)
    (hfirst : LoadStateFromDBOrGenesisDoc stateKey vc pc sc IsEmpty MakeGenesisState db
      genesisDoc = (db1, .ok state1))
    (hrt : sc.RoundTrip) (hne : sc.EmptyOnlyFor (State.zero V P))
    (hgen : ∀ genesis, MakeGenesisState genesisDoc = some genesis → IsEmpty genesis = false) :
    LoadStateFromDBOrGenesisDoc stateKey vc pc sc IsEmpty MakeGenesisState db1 genesisDoc
      = (db1, .ok state1) := by
  unfold LoadStateFromDBOrGenesisDoc at hfirst
  cases hL : LoadState stateKey sc db with
  | exit => rw [hL] at hfirst; simp at hfirst
  | panic p => rw [hL] at hfirst; simp at hfirst
  | err e => rw [hL] at hfirst; simp at hfirst
  | ok state0 =>
    rw [hL] at hfirst
    simp only at hfirst
    by_cases hE : IsEmpty state0 = true
    · simp only [hE, if_true] at hfirst
      cases hG : MakeGenesisState genesisDoc with
      | none => rw [hG] at hfirst; simp at hfirst
      | some genesis =>
        rw [hG] at hfirst
        simp only at hfirst
        cases hS : SaveState stateKey vc pc sc db genesis with
        | mk d o =>
          rw [hS] at hfirst
          cases o with
          | ok u =>
            simp only [Prod.mk.injEq, Outcome.ok.injEq] at hfirst
            obtain ⟨hd, hs⟩ := hfirst
            subst hd
            subst hs
            have hok : (SaveState stateKey vc pc sc db genesis).2 = .ok () := by rw [hS]
            have hload := LoadState_SaveState_of_ok stateKey vc pc sc db genesis hok hrt hne
            rw [hS] at hload
            simp only at hload
            unfold LoadStateFromDBOrGenesisDoc
            rw [hload]
            simp [hgen genesis hG]
          | err e => simp at hfirst
          | panic p => simp at hfirst
          | exit => simp at hfirst
    · simp [hE] at hfirst
      obtain ⟨hd, hs⟩ := hfirst
      subst hd
      subst hs
      unfold LoadStateFromDBOrGenesisDoc
      rw [hL]
      simp [hE]

/-- Witness of C11: the empty store and a genesis document giving the state
before the first block. -/
theorem loadStateFromDBOrGenesisDoc_idempotent_witness :
    LoadStateFromDBOrGenesisDoc sampleStateKey (unaryCodec (ValidatorsInfo Nat))
      (unaryCodec (ConsensusParamsInfo Nat)) (unaryCodec (State Nat Nat)) validatorsNil
      sampleMakeGenesisState DB.empty () =
      ((SaveState sampleStateKey (unaryCodec (ValidatorsInfo Nat))
        (unaryCodec (ConsensusParamsInfo Nat)) (unaryCodec (State Nat Nat)) DB.empty
        genesisState).1, .ok genesisState) ∧
    LoadStateFromDBOrGenesisDoc sampleStateKey (unaryCodec (ValidatorsInfo Nat))
      (unaryCodec (ConsensusParamsInfo Nat)) (unaryCodec (State Nat Nat)) validatorsNil
      sampleMakeGenesisState
      (SaveState sampleStateKey (unaryCodec (ValidatorsInfo Nat))
        (unaryCodec (ConsensusParamsInfo Nat)) (unaryCodec (State Nat Nat)) DB.empty
        genesisState).1 () =
      ((SaveState sampleStateKey (unaryCodec (ValidatorsInfo Nat))
        (unaryCodec (ConsensusParamsInfo Nat)) (unaryCodec (State Nat Nat)) DB.empty
        genesisState).1, .ok genesisState) :=
  ⟨sampleGenesis_first_call,
    loadStateFromDBOrGenesisDoc_idempotent sampleStateKey _ _ _ validatorsNil
      sampleMakeGenesisState DB.empty _ () genesisState sampleGenesis_first_call
      (unaryCodec_roundTrip _) unary_state_emptyOnlyFor
      (fun genesis hg => by
        have h : genesis = genesisState := by
          simp only [sampleMakeGenesisState, Option.some.injEq] at hg
          exact hg.symm
        rw [h]
        rfl)⟩

/-- C12, as the code has it: when the record at `changeHeight` embeds the params
`P`, `changeHeight < nextHeight` and `changeHeight` is not 0, after
`saveConsensusParamsInfo(db, nextHeight, changeHeight, P)` the record at
`nextHeight` holds the zero params and the pointer `changeHeight`, and
`LoadConsensusParams(db, nextHeight)` returns `P` with a nil error, read from
the record at `changeHeight`. The codec is assumed to decode what it encoded
and to give the empty encoding to no record but the zero record. -/
theorem loadConsensusParams_follows_pointer {P : Type} [Inhabited P] [DecidableEq P]
    (cdc : Codec (ConsensusParamsInfo P)) (db : DB) (nextHeight changeHeight : Int)
    (params : P) (c0 : Int)
    (hrec : loadConsensusParamsInfo cdc db changeHeight = .ok (some ⟨params, c0⟩))
    (hlt : changeHeight < nextHeight) (hc : changeHeight ≠ 0)
    (hrt : cdc.RoundTrip) (hne : cdc.EmptyOnlyFor (ConsensusParamsInfo.zero P)) :
    loadConsensusParamsInfo cdc (saveConsensusParamsInfo cdc db nextHeight changeHeight params)
        nextHeight = .ok (some ⟨default, changeHeight⟩) ∧
    loadConsensusParamsInfo cdc (saveConsensusParamsInfo cdc db nextHeight changeHeight params)
        changeHeight = .ok (some ⟨params, c0⟩) ∧
    LoadConsensusParams cdc (saveConsensusParamsInfo cdc db nextHeight changeHeight params)
        nextHeight = .ok params := by
  have hneq : changeHeight ≠ nextHeight := by omega
  have h1 := loadConsensusParamsInfo_after_save cdc db nextHeight changeHeight params hrt hne hc
  rw [if_neg hneq] at h1
  have h2 := loadConsensusParamsInfo_save_other cdc db nextHeight changeHeight params
    changeHeight hneq
  rw [hrec] at h2
  refine ⟨h1, h2, ?_⟩
  simp [LoadConsensusParams, h1, h2]

/-- Witness of C12: next height 10 and change height 5. -/
theorem loadConsensusParams_follows_pointer_witness :
    loadConsensusParamsInfo (unaryCodec (ConsensusParamsInfo Nat))
      (saveConsensusParamsInfo (unaryCodec (ConsensusParamsInfo Nat)) paramsStore 10 5 7) 10
      = .ok (some ⟨default, 5⟩) ∧
    loadConsensusParamsInfo (unaryCodec (ConsensusParamsInfo Nat))
      (saveConsensusParamsInfo (unaryCodec (ConsensusParamsInfo Nat)) paramsStore 10 5 7) 5
      = .ok (some ⟨7, 5⟩) ∧
    LoadConsensusParams (unaryCodec (ConsensusParamsInfo Nat))
      (saveConsensusParamsInfo (unaryCodec (ConsensusParamsInfo Nat)) paramsStore 10 5 7) 10
      = .ok 7 :=
  loadConsensusParams_follows_pointer (unaryCodec (ConsensusParamsInfo Nat)) paramsStore 10 5 7 5
    paramsStore_load_5 (by decide) (by decide) (unaryCodec_roundTrip _)
    unary_consensusParamsInfo_emptyOnlyFor

/-- C12 fails as stated for change height 0. The record at height 0 embeds the
non-zero params 7 and `0 < 5`; `saveConsensusParamsInfo(db, 5, 0, 7)` writes the
zero record, which a codec that omits zero fields, as amino does, encodes as
the empty byte string; `loadConsensusParamsInfo` takes the empty value for an
absent record and `LoadConsensusParams(db, 5)` returns
`NoConsensusParamsForHeightError`. -/
theorem loadConsensusParams_change_height_zero :
    loadConsensusParamsInfo (unaryCodec (ConsensusParamsInfo Nat)) paramsAtZeroStore 0
      = .ok (some ⟨7, 0⟩) ∧
    (7 : Nat) ≠ default ∧ (0 : Int) < 5 ∧
    (saveConsensusParamsInfo (unaryCodec (ConsensusParamsInfo Nat)) paramsAtZeroStore 5 0 7).Get
      (calcConsensusParamsKey 5) = some [] ∧
    LoadConsensusParams (unaryCodec (ConsensusParamsInfo Nat))
      (saveConsensusParamsInfo (unaryCodec (ConsensusParamsInfo Nat)) paramsAtZeroStore 5 0 7) 5
      = .err (.NoConsensusParamsForHeightError 5) := by
  have hz : (unaryCodec (ConsensusParamsInfo Nat)).marshal ⟨default, 0⟩ = [] := by
    have := encode_consensusParamsInfo_zero
    unfold ConsensusParamsInfo.zero at this
    simp only [unaryCodec, this, List.replicate_zero]
  have hg : (saveConsensusParamsInfo (unaryCodec (ConsensusParamsInfo Nat)) paramsAtZeroStore
      5 0 7).Get (calcConsensusParamsKey 5) = some [] := by
    rw [Get_saveConsensusParamsInfo_same, if_neg (by decide), hz]
  have hl := loadConsensusParamsInfo_of_empty (unaryCodec (ConsensusParamsInfo Nat))
    (saveConsensusParamsInfo (unaryCodec (ConsensusParamsInfo Nat)) paramsAtZeroStore 5 0 7) 5
    (by rw [hg]; rfl)
  refine ⟨paramsAtZeroStore_load_0, by decide, by decide, hg, ?_⟩
  simp [LoadConsensusParams, hl]

/-- C13. After `saveConsensusParamsInfo(db, nextHeight, changeHeight, P)` the value
under the consensus-params key of `nextHeight` is the encoding of a record whose
`LastHeightChanged` is `changeHeight` and whose params are `P` when
`changeHeight == nextHeight` and the zero value otherwise; for `P` not the zero
value the record holds `P` exactly when `changeHeight == nextHeight`. -/
theorem saveConsensusParamsInfo_stores_record {P : Type} [Inhabited P]
    (cdc : Codec (ConsensusParamsInfo P)) (db : DB) (nextHeight changeHeight : Int)
    (params : P) :
    ∃ rec : ConsensusParamsInfo P,
      (saveConsensusParamsInfo cdc db nextHeight changeHeight params).Get
          (calcConsensusParamsKey nextHeight) = some (cdc.marshal rec) ∧
      rec.LastHeightChanged = changeHeight ∧
      (changeHeight = nextHeight → rec.ConsensusParams = params) ∧
      (changeHeight ≠ nextHeight → rec.ConsensusParams = default) ∧
      (params ≠ default → (rec.ConsensusParams = params ↔ changeHeight = nextHeight)) := by
  rw [Get_saveConsensusParamsInfo_same]
  by_cases h : changeHeight = nextHeight
  · exact ⟨⟨params, changeHeight⟩, by simp [h], rfl, fun _ => rfl, fun hn => absurd h hn,
      fun _ => ⟨fun _ => h, fun _ => rfl⟩⟩
  · exact ⟨⟨default, changeHeight⟩, by simp [h], rfl, fun he => absurd he h, fun _ => rfl,
      fun hp => ⟨fun he => absurd he.symm hp, fun he => absurd he h⟩⟩

/-- C14 fails on the code. In the store left by
`saveConsensusParamsInfo(db, 5, 3, 9)` and `saveConsensusParamsInfo(db, 10, 5, 9)`
the record at height 10 exists with zero params and points to height 5, whose
record exists and also has zero params; `LoadConsensusParams(db, 10)` does not
panic: it returns the zero params with a nil error. -/
theorem loadConsensusParams_returns_zero_params :
    loadConsensusParamsInfo (unaryCodec (ConsensusParamsInfo Nat)) pointerChainStore 10
      = .ok (some ⟨default, 5⟩) ∧
    loadConsensusParamsInfo (unaryCodec (ConsensusParamsInfo Nat)) pointerChainStore 5
      = .ok (some ⟨default, 3⟩) ∧
    LoadConsensusParams (unaryCodec (ConsensusParamsInfo Nat)) pointerChainStore 10
      = .ok default := by
  refine ⟨pointerChainStore_load_10, pointerChainStore_load_5, ?_⟩
  simp [LoadConsensusParams, pointerChainStore_load_10, pointerChainStore_load_5]

/-- C15, as the code has it, with a codec that reads an empty list back as the
nil list: `SaveABCIResponses(db, h, r)` followed by `LoadABCIResponses(db, h)`
returns, with a nil error and whatever the store held under the key before,
`r` with the nil slice in the place of an allocated empty `DeliverTxs`; that is
`r` itself whenever `DeliverTxs` is nil or not empty. What `LoadABCIResponses`
returns for every other height is as it was. -/
theorem loadABCIResponses_after_save {T E B : Type} (cdc : Codec (ABCIResponses T E B))
    (db : DB) (h : Int) (r : ABCIResponses T E B) (hdec : cdc.ReadsEmptyAsNil) :
    LoadABCIResponses cdc (SaveABCIResponses cdc db h r) h = .ok r.nilIfEmpty ∧
    (r.DeliverTxs ≠ some [] →
      LoadABCIResponses cdc (SaveABCIResponses cdc db h r) h = .ok r) ∧
    ∀ h2 : Int, h2 ≠ h →
      LoadABCIResponses cdc (SaveABCIResponses cdc db h r) h2 = LoadABCIResponses cdc db h2 := by
  have hload : LoadABCIResponses cdc (SaveABCIResponses cdc db h r) h = .ok r.nilIfEmpty := by
    simp [LoadABCIResponses, SaveABCIResponses, DB.Get_Set, hdec r]
  refine ⟨hload, ?_, ?_⟩
  · intro hne
    rw [hload, nilIfEmpty_of_ne r hne]
  · intro h2 hne
    have hk : CalcABCIResponsesKey h2 ≠ CalcABCIResponsesKey h :=
      fun e => hne (CalcABCIResponsesKey_injective e)
    simp [LoadABCIResponses, SaveABCIResponses, DB.Get_Set, hk]

/-- Witness of C15: responses with two transactions saved at height 7 over
responses saved there before. -/
theorem loadABCIResponses_after_save_witness :
    LoadABCIResponses (nilListCodec Nat Nat Nat)
      (SaveABCIResponses (nilListCodec Nat Nat Nat)
        (SaveABCIResponses (nilListCodec Nat Nat Nat) DB.empty 7 ⟨none, 0, 0⟩) 7
        ⟨some [1, 2], 3, 4⟩) 7 = .ok ⟨some [1, 2], 3, 4⟩ :=
  (loadABCIResponses_after_save (nilListCodec Nat Nat Nat)
    (SaveABCIResponses (nilListCodec Nat Nat Nat) DB.empty 7 ⟨none, 0, 0⟩) 7
    ⟨some [1, 2], 3, 4⟩ (nilListCodec_readsEmptyAsNil Nat Nat Nat)).2.1 (by decide)

/-- C15 fails as stated for responses whose `DeliverTxs` is an allocated slice of
length zero: with a codec that reads an empty list back as the nil list, as
the comment of `NewABCIResponsesFromNum` says amino does, saving them and
loading them returns responses whose `DeliverTxs` is nil, a different value. -/
theorem loadABCIResponses_empty_list_read_as_nil :
    LoadABCIResponses (nilListCodec Nat Nat Nat)
      (SaveABCIResponses (nilListCodec Nat Nat Nat) DB.empty 7 ⟨some [], 3, 4⟩) 7
      = .ok ⟨none, 3, 4⟩ ∧
    (⟨none, 3, 4⟩ : ABCIResponses Nat Nat Nat) ≠ ⟨some [], 3, 4⟩ := by
  refine ⟨?_, by decide⟩
  have hd := nilListCodec_readsEmptyAsNil Nat Nat Nat ⟨some [], 3, 4⟩
  simp only [LoadABCIResponses, SaveABCIResponses, DB.Get_Set, if_true, hd]
  rfl

/-- C16, as the code has it. For `0 <= numTxs` not above the longest slice `make`
allocates, `NewABCIResponsesFromNum(numTxs)` returns responses whose `DeliverTxs`
has `numTxs` entries, all zero-valued, and whose `EndBlock` and `BeginBlock` are
zero-valued; `DeliverTxs` is the nil slice exactly when `numTxs == 0`. With a
codec that reads an empty list back as the nil list, the value built for
`numTxs == 0` is the value decoded from its own encoding, also through
`SaveABCIResponses` and `LoadABCIResponses`, and both have the same
`ResultsHash`; the value with an allocated empty slice is not. -/
theorem newABCIResponsesFromNum_spec {T E B : Type} [Inhabited T] [Inhabited E] [Inhabited B]
    (cdc : Codec (ABCIResponses T E B)) (resultsHash : Option (List T) → Bytes) (db : DB)
    (height : Int) (maxLen : Nat) (numTxs : Int) (h0 : 0 ≤ numTxs)
    (hmax : numTxs ≤ (maxLen : Int)) (hdec : cdc.ReadsEmptyAsNil) :
    (∃ r : ABCIResponses T E B, NewABCIResponsesFromNum maxLen numTxs = .ok r ∧
      (((r.DeliverTxs.getD []).length : Nat) : Int) = numTxs ∧
      (∀ x ∈ r.DeliverTxs.getD [], x = default) ∧
      r.EndBlock = default ∧ r.BeginBlock = default ∧
      (r.DeliverTxs = none ↔ numTxs = 0)) ∧
    (∃ fresh : ABCIResponses T E B, NewABCIResponsesFromNum maxLen 0 = .ok fresh ∧
      fresh.DeliverTxs = none ∧
      cdc.unmarshal (cdc.marshal fresh) = some fresh ∧
      LoadABCIResponses cdc (SaveABCIResponses cdc db height fresh) height = .ok fresh ∧
      (∀ decoded, cdc.unmarshal (cdc.marshal fresh) = some decoded →
        decoded.ResultsHash resultsHash = fresh.ResultsHash resultsHash)) ∧
    cdc.unmarshal (cdc.marshal (⟨some [], default, default⟩ : ABCIResponses T E B))
      ≠ some ⟨some [], default, default⟩ := by
  have hn : ¬ (numTxs < 0 ∨ (maxLen : Int) < numTxs) := by omega
  have hn0 : ¬ ((0 : Int) < 0 ∨ (maxLen : Int) < 0) := by omega
  have hfresh : cdc.unmarshal (cdc.marshal (⟨none, default, default⟩ : ABCIResponses T E B))
      = some ⟨none, default, default⟩ := hdec ⟨none, default, default⟩
  refine ⟨?_, ⟨⟨none, default, default⟩, by simp [NewABCIResponsesFromNum, hn0], rfl, hfresh,
    ?_, ?_⟩, ?_⟩
  · by_cases hz : numTxs = 0
    · refine ⟨⟨none, default, default⟩, by simp [NewABCIResponsesFromNum, hz], ?_, ?_, rfl, rfl, ?_⟩
      · simp [hz]
      · simp
      · simp [hz]
    · refine ⟨⟨some (List.replicate numTxs.toNat default), default, default⟩,
        by simp only [NewABCIResponsesFromNum, hn, hz, if_false], ?_, ?_, rfl, rfl, ?_⟩
      · simp only [Option.getD_some, List.length_replicate]
        omega
      · intro x hx
        simp only [Option.getD_some] at hx
        exact List.eq_of_mem_replicate hx
      · simp [hz]
  · simp [LoadABCIResponses, SaveABCIResponses, DB.Get_Set, hfresh]
  · intro decoded hd
    rw [hfresh] at hd
    rw [← Option.some.inj hd]
  · rw [hdec]
    simp [ABCIResponses.nilIfEmpty]

/-- Witness of C16: three transactions, with the codec that reads an empty list
back as the nil list. -/
theorem newABCIResponsesFromNum_spec_witness :
    (∃ r : ABCIResponses Nat Nat Nat, NewABCIResponsesFromNum maxAlloc64 3 = .ok r ∧
      (((r.DeliverTxs.getD []).length : Nat) : Int) = 3 ∧
      (∀ x ∈ r.DeliverTxs.getD [], x = default) ∧
      r.EndBlock = default ∧ r.BeginBlock = default ∧
      (r.DeliverTxs = none ↔ (3 : Int) = 0)) ∧
    (∃ fresh : ABCIResponses Nat Nat Nat, NewABCIResponsesFromNum maxAlloc64 0 = .ok fresh ∧
      fresh.DeliverTxs = none ∧
      (nilListCodec Nat Nat Nat).unmarshal ((nilListCodec Nat Nat Nat).marshal fresh)
        = some fresh ∧
      LoadABCIResponses (nilListCodec Nat Nat Nat)
        (SaveABCIResponses (nilListCodec Nat Nat Nat) DB.empty 7 fresh) 7 = .ok fresh ∧
      (∀ decoded,
        (nilListCodec Nat Nat Nat).unmarshal ((nilListCodec Nat Nat Nat).marshal fresh)
          = some decoded →
        decoded.ResultsHash (fun _ => []) = fresh.ResultsHash (fun _ => []))) ∧
    (nilListCodec Nat Nat Nat).unmarshal
        ((nilListCodec Nat Nat Nat).marshal (⟨some [], default, default⟩ : ABCIResponses Nat Nat Nat))
      ≠ some ⟨some [], default, default⟩ :=
  newABCIResponsesFromNum_spec (nilListCodec Nat Nat Nat) (fun _ => []) DB.empty 7 maxAlloc64 3
    (by decide) (by decide) (nilListCodec_readsEmptyAsNil Nat Nat Nat)

/-- C16 fails as stated for a length `make` does not allocate: with the limit of
2^48 entries, which no element type of one byte or more exceeds on a 64-bit
platform, `NewABCIResponsesFromNum(4611686018427387904)` panics, as `make` does
with "makeslice: len out of range". -/
theorem newABCIResponsesFromNum_panics_on_huge_length :
    (0 : Int) ≤ 4611686018427387904 ∧
    (NewABCIResponsesFromNum maxAlloc64 4611686018427387904 :
      Outcome (ABCIResponses Nat Nat Nat)) = .panic .makesliceLenOutOfRange := by
  refine ⟨by decide, ?_⟩
  have h : (4611686018427387904 : Int) < 0 ∨ ((maxAlloc64 : Nat) : Int) < 4611686018427387904 :=
    Or.inr (by decide)
  simp only [NewABCIResponsesFromNum, h, if_true]

/-- C17. `saveTxResultIndex(db, a, (n, i))` followed by `LoadTxResultIndex(db, a)`
returns `(n, i)` with a nil error, and for a hash `b` different from `a` under
whose key the store holds nothing, `LoadTxResultIndex(db, b)` returns
`NoTxResultForHashError`. The codec is assumed to decode the encoding of
`(n, i)` to `(n, i)`. -/
theorem loadTxResultIndex_after_save (cdc : Codec TxResultIndex) (db : DB) (a b : Bytes)
    (n : Int) (i : Nat)
    (hrt : cdc.unmarshal (cdc.marshal ⟨n, i⟩) = some ⟨n, i⟩)
    (hab : b ≠ a) (hb : db.Get (CalcTxResultKey b) = none) :
    LoadTxResultIndex cdc (saveTxResultIndex cdc db a ⟨n, i⟩) a = .ok ⟨n, i⟩ ∧
    LoadTxResultIndex cdc (saveTxResultIndex cdc db a ⟨n, i⟩) b
      = .err (.NoTxResultForHashError b) := by
  have hk : CalcTxResultKey b ≠ CalcTxResultKey a := fun e => hab (CalcTxResultKey_injective e)
  constructor
  · simp [LoadTxResultIndex, saveTxResultIndex, DB.Get_Set, hrt]
  · simp [LoadTxResultIndex, saveTxResultIndex, DB.Get_Set, hk, hb]

/-- Witness of C17: the hash `aa` saved at block 42, index 3, and the hash `bb`
never saved. -/
theorem loadTxResultIndex_after_save_witness :
    LoadTxResultIndex (unaryCodec TxResultIndex)
      (saveTxResultIndex (unaryCodec TxResultIndex) DB.empty [0xAA] ⟨42, 3⟩) [0xAA]
      = .ok ⟨42, 3⟩ ∧
    LoadTxResultIndex (unaryCodec TxResultIndex)
      (saveTxResultIndex (unaryCodec TxResultIndex) DB.empty [0xAA] ⟨42, 3⟩) [0xBB]
      = .err (.NoTxResultForHashError [0xBB]) :=
  loadTxResultIndex_after_save (unaryCodec TxResultIndex) DB.empty [0xAA] [0xBB] 42 3
    (unaryCodec_roundTrip _ _) (by decide) rfl

/-- C18. When the store holds under the key of a hash a value the codec does not
decode, `LoadTxResultIndex` returns an error (it neither panics nor stops the
process); the error wraps `errTxResultIndexCorrupted`, and it is not the
`NoTxResultForHashError` of an absent key, which does not wrap
`errTxResultIndexCorrupted`. -/
theorem loadTxResultIndex_corrupted (cdc : Codec TxResultIndex) (db : DB) (txHash buf : Bytes)
    (hget : db.Get (CalcTxResultKey txHash) = some buf) (hdec : cdc.unmarshal buf = none) :
    ∃ e : StoreError, LoadTxResultIndex cdc db txHash = .err e ∧
      e.Is .errTxResultIndexCorrupted = true ∧
      e ≠ .NoTxResultForHashError txHash ∧
      e.Is (.NoTxResultForHashError txHash) = false ∧
      (StoreError.NoTxResultForHashError txHash).Is .errTxResultIndexCorrupted = false := by
  refine ⟨.wrapBoth .errTxResultIndexCorrupted .unmarshalError, ?_, ?_, ?_, ?_, ?_⟩
  · simp [LoadTxResultIndex, hget, hdec]
  · simp [StoreError.Is]
  · simp
  · simp [StoreError.Is]
  · simp [StoreError.Is]

/-- Witness of C18: the byte 0 stored under the key of the hash `aa` is no
encoding of the tagged codec. -/
theorem loadTxResultIndex_corrupted_witness :
    ∃ e : StoreError,
      LoadTxResultIndex (taggedCodec TxResultIndex) corruptedIndexStore [0xAA] = .err e ∧
      e.Is .errTxResultIndexCorrupted = true ∧
      e ≠ .NoTxResultForHashError [0xAA] ∧
      e.Is (.NoTxResultForHashError [0xAA]) = false ∧
      (StoreError.NoTxResultForHashError [0xAA]).Is .errTxResultIndexCorrupted = false :=
  loadTxResultIndex_corrupted (taggedCodec TxResultIndex) corruptedIndexStore [0xAA] [0]
    (by simp [corruptedIndexStore, DB.Get_Set]) rfl

/-- C19, as the code has it: let the record at a height `0 <= h` (an int64) be a
pointer record whose change height `c` satisfies `c <= h`, with the int64
subtraction `h - c` not overflowing (it cannot for `0 <= c`). Whenever
`LoadValidators(h)` reaches the call of `IncrementProposerPriority`, the height it
resolved at, `lastStoredHeightFor(h, c)` or `c`, is strictly below `h`, and the
argument of the call is the difference, strictly positive. -/
theorem rotation_steps_positive {V : Type} (cdc : Codec (ValidatorsInfo V)) (db : DB)
    (h c : Int) (vs : V) (times : Int)
    (hrec : loadValidatorsInfo cdc db h = .ok (some ⟨none, c⟩))
    (hle : c ≤ h) (hh : 0 ≤ h) (hh64 : h < 2 ^ 63) (hnov : h - c < 2 ^ 63)
    (hres : resolveValidators cdc db h = .ok (vs, some times)) :
    0 < times ∧
    ((times = h - lastStoredHeightFor h c ∧ lastStoredHeightFor h c < h) ∨
      (times = h - c ∧ c < h)) := by
  have hmod : h.tmod 100000 = h % 100000 := Int.tmod_eq_emod hh (by norm_num)
  have hrle : lastStoredHeightFor h c ≤ h ∧ 0 ≤ lastStoredHeightFor h c := by
    rw [lastStoredHeightFor_eq, hmod]
    rcases max_cases (h - h % 100000) c with ⟨hm, _⟩ | ⟨hm, _⟩ <;> rw [hm] <;> omega
  have hfall : ∀ V1 c1, loadValidatorsInfo cdc db c = .ok (some ⟨some V1, c1⟩) →
      c < h ∧ sub64 h c = h - c := by
    intro V1 c1 hc
    have hne : c ≠ h := by
      intro e
      rw [e, hrec] at hc
      simp at hc
    have hlt : c < h := by omega
    exact ⟨hlt, wrapInt64_of_range _ (by omega) hnov⟩
  have hfallback : lacksSet (loadValidatorsInfo cdc db (lastStoredHeightFor h c)) = true →
      0 < times ∧
      ((times = h - lastStoredHeightFor h c ∧ lastStoredHeightFor h c < h) ∨
        (times = h - c ∧ c < h)) := by
    intro hl
    rcases loadValidatorsInfo_cases cdc db c with ⟨_, h3⟩ | ⟨_, h3⟩ | ⟨_, ⟨vs3, c3⟩, h3⟩
    · rw [resolveValidators_unresolved cdc db h c hrec hl (by rw [h3]; rfl)] at hres
      simp at hres
    · rcases (lacksSet_iff _).mp hl with h2 | ⟨c2, h2⟩ <;>
        simp [resolveValidators, hrec, h2, h3] at hres
    · cases vs3 with
      | none =>
        rw [resolveValidators_unresolved cdc db h c hrec hl (by rw [h3]; rfl)] at hres
        simp at hres
      | some V1 =>
        rw [resolveValidators_at_change cdc db h c V1 c3 hrec hl h3] at hres
        simp only [Outcome.ok.injEq, Prod.mk.injEq, Option.some.injEq] at hres
        obtain ⟨hlt, hsub⟩ := hfall V1 c3 h3
        rw [hsub] at hres
        exact ⟨by omega, Or.inr ⟨hres.2.symm, hlt⟩⟩
  rcases loadValidatorsInfo_cases cdc db (lastStoredHeightFor h c) with
    ⟨_, h2⟩ | ⟨_, h2⟩ | ⟨_, ⟨vs2, c2⟩, h2⟩
  · exact hfallback (by rw [h2]; rfl)
  · simp [resolveValidators, hrec, h2] at hres
  · cases vs2 with
    | none => exact hfallback (by rw [h2]; rfl)
    | some V0 =>
      rw [resolveValidators_at_checkpoint cdc db h c V0 c2 hrec h2] at hres
      simp only [Outcome.ok.injEq, Prod.mk.injEq, Option.some.injEq] at hres
      have hne : lastStoredHeightFor h c ≠ h := by
        intro e
        rw [e, hrec] at h2
        simp at h2
      have hlt : lastStoredHeightFor h c < h := by omega
      have hsub : sub64 h (lastStoredHeightFor h c) = h - lastStoredHeightFor h c :=
        wrapInt64_of_range _ (by omega) (by omega)
      rw [hsub] at hres
      exact ⟨by omega, Or.inl ⟨hres.2.symm, hlt⟩⟩

/-- Witness of C19: the pointer record at height 100003 resolves at the
checkpoint 100000, and the argument of the rotation is 3. -/
theorem rotation_steps_positive_witness :
    (0 : Int) < 3 ∧
    (((3 : Int) = 100003 - lastStoredHeightFor 100003 1 ∧ lastStoredHeightFor 100003 1 < 100003) ∨
      ((3 : Int) = 100003 - 1 ∧ (1 : Int) < 100003)) :=
  rotation_steps_positive (unaryCodec (ValidatorsInfo Nat)) checkpointStore 100003 1 5 3
    checkpointStore_load_100003 (by decide) (by decide) (by decide) (by decide)
    checkpointStore_resolve_100003

/-- C19 fails as stated. The store is built from the empty store by
`saveValidatorsInfo(db, -1, -1, S)` and
`saveValidatorsInfo(db, 9223372036854775807, -1, S')`, so each record has a
change height not above its own height. `LoadValidators(9223372036854775807)`
finds no record at the checkpoint, resolves at the change height -1, which is
below the height, and the int64 difference it passes to
`IncrementProposerPriority` wraps to -9223372036854775808. -/
theorem rotation_steps_negative_by_wrap :
    (saveValidatorsInfo (unaryCodec (ValidatorsInfo Nat)) DB.empty (-1) (-1) (some 0)).2
      = .ok () ∧
    (saveValidatorsInfo (unaryCodec (ValidatorsInfo Nat))
      (saveValidatorsInfo (unaryCodec (ValidatorsInfo Nat)) DB.empty (-1) (-1) (some 0)).1
      9223372036854775807 (-1) (some 1)).2 = .ok () ∧
    (0 : Int) ≤ 9223372036854775807 ∧
    resolveValidators (unaryCodec (ValidatorsInfo Nat)) negativeChangeStore 9223372036854775807
      = .ok (0, some (-9223372036854775808)) ∧
    ¬ ((0 : Int) < -9223372036854775808) := by
  refine ⟨?_, ?_, by decide, ?_, by decide⟩
  · rw [saveValidatorsInfo_of_le _ _ _ _ _ (by decide)]
  · rw [saveValidatorsInfo_of_le _ _ _ _ _ (by decide)]
  · have hl : lastStoredHeightFor 9223372036854775807 (-1) = 9223372036854700000 := by decide
    have := resolveValidators_at_change _ negativeChangeStore 9223372036854775807 (-1) 0 (-1)
      negativeChangeStore_load_max
      (by rw [hl, negativeChangeStore_load_checkpoint]; rfl) negativeChangeStore_load_change
    rw [this]
    have hs : sub64 9223372036854775807 (-1) = -9223372036854775808 := by decide
    rw [hs]

/-- C20, as the code has it. The four key derivations are injective, in the
height (negative heights included) or in the hash bytes, and keys of two
different kinds are never equal. Hence each save writes one key and leaves the
value under every other key as it was, and what `loadValidatorsInfo`,
`loadConsensusParamsInfo`, `LoadABCIResponses` and `LoadTxResultIndex` return
depends on the value under their own key only; `LoadValidators` and
`LoadConsensusParams` depend on the values under the keys of their own kind
only. -/
theorem keys_never_collide {V P T E B : Type} [Inhabited P] [DecidableEq P]
    (vc : Codec (ValidatorsInfo V)) (pc : Codec (ConsensusParamsInfo P))
    (ac : Codec (ABCIResponses T E B)) (tc : Codec TxResultIndex) (rot : V → V) (db : DB) :
    (∀ a b : Int, calcValidatorsKey a = calcValidatorsKey b → a = b) ∧
    (∀ a b : Int, calcConsensusParamsKey a = calcConsensusParamsKey b → a = b) ∧
    (∀ a b : Int, CalcABCIResponsesKey a = CalcABCIResponsesKey b → a = b) ∧
    (∀ a b : Bytes, CalcTxResultKey a = CalcTxResultKey b → a = b) ∧
    (∀ a b : Int, calcValidatorsKey a ≠ calcConsensusParamsKey b) ∧
    (∀ a b : Int, calcValidatorsKey a ≠ CalcABCIResponsesKey b) ∧
    (∀ (a : Int) (b : Bytes), calcValidatorsKey a ≠ CalcTxResultKey b) ∧
    (∀ a b : Int, calcConsensusParamsKey a ≠ CalcABCIResponsesKey b) ∧
    (∀ (a : Int) (b : Bytes), calcConsensusParamsKey a ≠ CalcTxResultKey b) ∧
    (∀ (a : Int) (b : Bytes), CalcABCIResponsesKey a ≠ CalcTxResultKey b) ∧
    (∀ (h c : Int) (valSet : Option V) (k : Key), k ≠ calcValidatorsKey h →
      (saveValidatorsInfo vc db h c valSet).1.Get k = db.Get k) ∧
    (∀ (nextHeight changeHeight : Int) (params : P) (k : Key),
      k ≠ calcConsensusParamsKey nextHeight →
      (saveConsensusParamsInfo pc db nextHeight changeHeight params).Get k = db.Get k) ∧
    (∀ (h : Int) (r : ABCIResponses T E B) (k : Key), k ≠ CalcABCIResponsesKey h →
      (SaveABCIResponses ac db h r).Get k = db.Get k) ∧
    (∀ (a : Bytes) (ri : TxResultIndex) (k : Key), k ≠ CalcTxResultKey a →
      (saveTxResultIndex tc db a ri).Get k = db.Get k) ∧
    (∀ (db2 : DB) (h : Int), db2.Get (calcValidatorsKey h) = db.Get (calcValidatorsKey h) →
      loadValidatorsInfo vc db2 h = loadValidatorsInfo vc db h) ∧
    (∀ (db2 : DB) (h : Int),
      db2.Get (calcConsensusParamsKey h) = db.Get (calcConsensusParamsKey h) →
      loadConsensusParamsInfo pc db2 h = loadConsensusParamsInfo pc db h) ∧
    (∀ (db2 : DB) (h : Int), db2.Get (CalcABCIResponsesKey h) = db.Get (CalcABCIResponsesKey h) →
      LoadABCIResponses ac db2 h = LoadABCIResponses ac db h) ∧
    (∀ (db2 : DB) (a : Bytes), db2.Get (CalcTxResultKey a) = db.Get (CalcTxResultKey a) →
      LoadTxResultIndex tc db2 a = LoadTxResultIndex tc db a) ∧
    (∀ db2 : DB, (∀ h, db2.Get (calcValidatorsKey h) = db.Get (calcValidatorsKey h)) →
      ∀ h, LoadValidators vc rot db2 h = LoadValidators vc rot db h) ∧
    (∀ db2 : DB, (∀ h, db2.Get (calcConsensusParamsKey h) = db.Get (calcConsensusParamsKey h)) →
      ∀ h, LoadConsensusParams pc db2 h = LoadConsensusParams pc db h) := by
  refine ⟨fun _ _ => calcValidatorsKey_injective, fun _ _ => calcConsensusParamsKey_injective,
    fun _ _ => CalcABCIResponsesKey_injective, fun _ _ => CalcTxResultKey_injective,
    ?_, ?_, ?_, ?_, ?_, ?_, ?_, ?_, ?_, ?_, ?_, ?_, ?_, ?_, ?_, ?_⟩
  · exact calcValidatorsKey_ne_calcConsensusParamsKey
  · intro a b h
    simp [calcValidatorsKey, CalcABCIResponsesKey] at h
  · intro a b h
    simp [calcValidatorsKey, CalcTxResultKey] at h
  · intro a b h
    simp [calcConsensusParamsKey, CalcABCIResponsesKey] at h
  · intro a b h
    simp [calcConsensusParamsKey, CalcTxResultKey] at h
  · intro a b h
    simp [CalcABCIResponsesKey, CalcTxResultKey] at h
  · intro h c valSet k hk
    exact Get_saveValidatorsInfo_other vc db h c valSet k hk
  · intro nextHeight changeHeight params k hk
    exact Get_saveConsensusParamsInfo_other pc db nextHeight changeHeight params k hk
  · intro h r k hk
    simp only [SaveABCIResponses, DB.Get_Set, hk, if_false]
  · intro a ri k hk
    simp only [saveTxResultIndex, DB.Get_Set, hk, if_false]
  · intro db2 h hg
    exact loadValidatorsInfo_congr vc db db2 h hg
  · intro db2 h hg
    exact loadConsensusParamsInfo_congr pc db db2 h hg
  · intro db2 h hg
    simp only [LoadABCIResponses, hg]
  · intro db2 a hg
    simp only [LoadTxResultIndex, hg]
  · intro db2 hg h
    simp only [LoadValidators, resolveValidators_congr vc db db2 hg]
  · intro db2 hg h
    exact LoadConsensusParams_congr pc db db2 hg h

/-- C20 fails as stated for `LoadValidators`, which for a pointer record reads the
record of another height. In the store with the set 5 embedded at the
checkpoint 100000 and a pointer record at 100003, `LoadValidators(100003)`
returns 8; after `saveValidatorsInfo(db, 100000, 1, 50)`, a save for a different
height, it returns 53. -/
theorem save_changes_load_at_other_height :
    (100000 : Int) ≠ 100003 ∧
    LoadValidators (unaryCodec (ValidatorsInfo Nat)) Nat.succ checkpointStore 100003 = .ok 8 ∧
    LoadValidators (unaryCodec (ValidatorsInfo Nat)) Nat.succ
      (saveValidatorsInfo (unaryCodec (ValidatorsInfo Nat)) checkpointStore 100000 1
        (some 50)).1 100003 = .ok 53 := by
  refine ⟨by decide, ?_, ?_⟩
  · rw [LoadValidators_of_resolve_rotated _ Nat.succ _ _ _ _ checkpointStore_resolve_100003]
    exact congrArg Outcome.ok (Nat.succ_iterate 5 3)
  · rw [LoadValidators_of_resolve_rotated _ Nat.succ _ _ _ _
      resavedCheckpointStore_resolve_100003]
    exact congrArg Outcome.ok (Nat.succ_iterate 50 3)

end Store
